import Mathlib

/-!
Verification development for the MCP transport and session-management layer
of the Chef repository (`app/lib/.server/mcp/mcpLoader.ts` and
`app/lib/.server/mcp/httpMcpClient.ts`, the latter containing both the
HTTP client and the stdio `MCPClient`/`MCPManager`).

The TypeScript code is shallowly embedded: plain objects become structures,
JavaScript objects used as string-keyed records become association lists with
JS assignment semantics (`rset`), the stdio transport's mutable state becomes
an explicit `TransportState` acted on by step functions, and the module-level
mutable state of the loader (`globalMCPManager`, `globalHTTPClients`,
`currentServerConfigs`) becomes an explicit `LoaderState` threaded through
`loadMCPTools`.  Thrown exceptions become `Except` values.
-/

/-! ## JS-object records

A JavaScript object used as a string-keyed record is modelled as an
association list with unique keys.  `obj[k] = v` keeps the position of an
existing key and appends a fresh key; `Object.assign(dst, src)` performs that
assignment for every entry of `src` in order. -/

def rset {α : Type} : List (String × α) → String → α → List (String × α)
  | [], k, v => [(k, v)]
  | p :: rest, k, v => if p.1 = k then (k, v) :: rest else p :: rset rest k v

def rassign {α : Type} : List (String × α) → List (String × α) → List (String × α)
  | d, [] => d
  | d, p :: rest => rassign (rset d p.1 p.2) rest

def rkeys {α : Type} (r : List (String × α)) : List String := r.map (·.1)

def rlookup {α : Type} (r : List (String × α)) (k : String) : Option α :=
  (r.find? (fun p => p.1 == k)).map (·.2)

/-! ## Tool descriptors and schema translation

`MCPTool` mirrors the `MCPTool` interface of both clients; `inputSchema` is
the JSON-Schema subset the code reads (`type`, `properties`, `required`).
Property values reaching `convertJsonSchemaToZod` are read through the cast
`{ type?: string; description?: string }`, modelled by `PropSpec`. -/

structure PropSpec where
  type? : Option String := none
  description : Option String := none
deriving DecidableEq

structure InputSchema where
  stype : String := "object"
  properties : Option (List (String × PropSpec)) := none
  required : Option (List String) := none
deriving DecidableEq

structure MCPTool where
  name : String
  description : Option String := none
  inputSchema : InputSchema := {}
deriving DecidableEq

/-- The base Zod validator chosen by the `switch` in `convertJsonSchemaToZod`:
`z.string()`, `z.number()`, `z.boolean()`, `z.array(z.any())`,
`z.record(z.any())`, or `z.any()`. -/
inductive ZodBase
  | zstring
  | znumber
  | zboolean
  | zarray
  | zrecordAny
  | zany
deriving DecidableEq

/-- One field of the translated parameter shape: the base validator together
with an attached `.describe(...)` and `.optional()` wrapper. -/
structure ZodField where
  base : ZodBase
  describedAs : Option String
  isOptional : Bool
deriving DecidableEq

/-- The `switch (prop.type)` of `convertJsonSchemaToZod`: the five recognized
JSON-Schema primitive type strings, anything else (or an absent `type`)
falling through to `z.any()`. -/
def zodBaseForType : Option String → ZodBase
  | some "string" => .zstring
  | some "number" => .znumber
  | some "boolean" => .zboolean
  | some "array" => .zarray
  | some "object" => .zrecordAny
  | _ => .zany

/-- `convertJsonSchemaToZod` (identical in `MCPClient` and `HTTPMCPClient`):
iterates `Object.entries(schema.properties)`, assigning into the `shape`
object a Zod type per property, optional exactly when the property name is
not listed in `schema.required`. -/
def convertJsonSchemaToZod (schema : InputSchema) : List (String × ZodField) :=
  match schema.properties with
  | none => []
  | some props =>
    props.foldl
      (fun shape kv =>
        let zf : ZodField :=
          { base := zodBaseForType kv.2.type?
            describedAs := kv.2.description
            isOptional := !((schema.required.getD []).contains kv.1) }
        rset shape kv.1 zf)
      []

/-! ## Callable tools (`getTools`) -/

/-- The AI-SDK `Tool` object built by `getTools`: its description string, its
translated parameter shape, and the `(serverName, toolName)` pair the
`execute` closure targets with a `tools/call` request. -/
structure ToolDef where
  description : String
  parameters : List (String × ZodField)
  callTarget : String × String
deriving DecidableEq

/-- JS `a || b` for strings: the empty string is falsy. -/
def jsStringOr (s : Option String) (d : String) : String :=
  match s with
  | some v => if v = "" then d else v
  | none => d

def mkCallableTool (server : String) (t : MCPTool) : ToolDef :=
  { description := jsStringOr t.description t.name
    parameters := convertJsonSchemaToZod t.inputSchema
    callTarget := (server, t.name) }

/-- `getTools` (identical in both clients): builds the record
`tools["mcp_" + config.name + "_" + mcpTool.name] = ...` over the stored
tool descriptors. -/
def getToolsOf (server : String) (ts : List MCPTool) : List (String × ToolDef) :=
  ts.foldl (fun r t => rset r ("mcp_" ++ server ++ "_" ++ t.name) (mkCallableTool server t)) []

/-- One live client/session: a unique identity (used to observe restarts),
the configured server name, and the tool catalog fetched by `tools/list`. -/
structure ClientSession where
  sid : Nat
  serverName : String
  tools : List MCPTool
deriving DecidableEq

def ClientSession.getTools (c : ClientSession) : List (String × ToolDef) :=
  getToolsOf c.serverName c.tools

/-- `MCPManager.getAllTools`: `Object.assign` of every client's `getTools()`
into one record, in client-map insertion order. -/
def managerGetAllTools (clients : List ClientSession) : List (String × ToolDef) :=
  clients.foldl (fun acc c => rassign acc c.getTools) []

/-! ## Stdio transport (`MCPClient`)

The mutable fields of `MCPClient` that the claims are about — the `process`
handle (alive or not), the `messageId` counter, and the `pendingRequests`
map — become `TransportState`.  `sendLog` records the ids handed out by
`sendRequest`, in send order, as an observation of the id-assignment
discipline.  The `pendingRequests` map keyed by id is an association list of
`PendingEntry`; since ids are unique (proved below), `Map.delete` is the
same as filtering the one entry out. -/

def REQUEST_TIMEOUT_MS : Nat := 30000

structure PendingEntry where
  id : Nat
  method : String
  deadline : Nat
deriving DecidableEq

structure TransportState where
  running : Bool
  messageId : Nat
  pending : List PendingEntry
  sendLog : List Nat
deriving DecidableEq

/-- State of a freshly started transport: the process is alive, no request
has been sent. -/
def initTransport : TransportState := ⟨true, 0, [], []⟩

def pendingIds (st : TransportState) : List Nat := st.pending.map (·.id)

def removePending (st : TransportState) (i : Nat) : TransportState :=
  { st with pending := st.pending.filter (fun e => e.id ≠ i) }

/-- Errors raised by the stdio client, per the spec taxonomy. -/
inductive MCPFailure
  | notRunning
  | requestTimeout (method : String)
  | rpcError (message : String)
deriving DecidableEq

/-- `MCPClient.sendRequest` (state part): throws if the process is gone;
otherwise assigns `id = ++this.messageId`, registers the pending entry, and
schedules its timeout at `now + 30000` (the `setTimeout(..., 30000)`).
Returns the assigned id, `none` when it threw. -/
def MCPClient.sendRequest (st : TransportState) (method : String) (now : Nat) :
    TransportState × Option Nat :=
  if st.running then
    let i := st.messageId + 1
    ({ st with
        messageId := i
        pending := st.pending ++ [⟨i, method, now + REQUEST_TIMEOUT_MS⟩]
        sendLog := st.sendLog ++ [i] }, some i)
  else (st, none)

/-- What a fired timeout callback did. -/
inductive TimeoutFire
  | rejected (f : MCPFailure)
  | skipped
deriving DecidableEq

/-- The timeout callback for request `i`: if the entry is still pending it is
deleted and the request rejected with `Request timeout for <method>`;
otherwise the callback does nothing. -/
def MCPClient.fireTimeout (st : TransportState) (i : Nat) : TransportState × TimeoutFire :=
  match st.pending.find? (fun e => e.id == i) with
  | some e => (removePending st i, .rejected (.requestTimeout e.method))
  | none => (st, .skipped)

/-- A parsed JSON-RPC message from the server, as `handleMessage` reads it. -/
structure MCPMessage where
  id? : Option Nat := none
  method? : Option String := none
  result? : Option String := none
  error? : Option String := none
deriving DecidableEq

/-- What `handleMessage` did with a message. -/
inductive MsgOutcome
  | resolved (i : Nat) (result : Option String)
  | rejected (i : Nat) (f : MCPFailure)
  | notificationSeen (method : String)
  | serverRequest (method : String)
  | ignored
deriving DecidableEq

/-- `MCPClient.handleMessage`: a message with a pending id resolves or
rejects that request and deletes its entry; a message with a method and no
id is logged as a notification; a method with an (unmatched) id is logged as
an unexpected server request; anything else — in particular a response whose
id is no longer pending — falls through all three branches and is dropped
silently. -/
def MCPClient.handleMessage (st : TransportState) (msg : MCPMessage) :
    TransportState × MsgOutcome :=
  match msg.id? with
  | some i =>
    if st.pending.any (fun e => e.id == i) then
      let st' := removePending st i
      match msg.error? with
      | some e => (st', .rejected i (.rpcError e))
      | none => (st', .resolved i msg.result?)
    else
      match msg.method? with
      | some m => (st, .serverRequest m)
      | none => (st, .ignored)
  | none =>
    match msg.method? with
    | some m => (st, .notificationSeen m)
    | none => (st, .ignored)

/-- `MCPClient.sendNotification`: throws `MCP server ... is not running` when
the process handle is gone, otherwise writes the line and returns. -/
def MCPClient.sendNotification (st : TransportState) (method : String) :
    Except MCPFailure Unit :=
  if st.running then Except.ok () else Except.error MCPFailure.notRunning

/-- `HTTPMCPClient.sendNotification`: one POST inside `try { ... } catch`
with an empty handler — whatever the fetch did, the call returns normally. -/
def HTTPMCPClient.sendNotification (fetchOutcome : Except String Unit) :
    Except MCPFailure Unit :=
  match fetchOutcome with
  | .ok _ => Except.ok ()
  | .error _ => Except.ok ()

/-! ### Session event traces

The asynchronous life of one stdio session between `start()` and `stop()`
is a sequence of events: a request is sent, a parsed line is delivered, a
scheduled timeout fires, or the child process exits (which only clears the
process handle). -/

inductive TEvent
  | send (method : String) (now : Nat)
  | deliver (msg : MCPMessage)
  | timeout (i : Nat)
  | procExit
deriving DecidableEq

def stepT (st : TransportState) : TEvent → TransportState
  | .send m now => (MCPClient.sendRequest st m now).1
  | .deliver msg => (MCPClient.handleMessage st msg).1
  | .timeout i => (MCPClient.fireTimeout st i).1
  | .procExit => { st with running := false }

def execT (st : TransportState) (evs : List TEvent) : TransportState :=
  evs.foldl stepT st

/-- Number of steps along a trace that actually remove id `i` from the
pending table. -/
def removalCount (i : Nat) : TransportState → List TEvent → Nat
  | _, [] => 0
  | st, e :: rest =>
    (if i ∈ pendingIds st ∧ i ∉ pendingIds (stepT st e) then 1 else 0) +
      removalCount i (stepT st e) rest

/-! ## Loader (`mcpLoader.ts`)

`loadMCPTools` keeps module-level state across calls: the stdio
`globalMCPManager` (its client map), the `globalHTTPClients` map, and the
`currentServerConfigs` hash.  The hash is `JSON.stringify` of
`{name, command, args, env}` per stdio config; since that serialization is
injective on those four fields (`undefined` fields are dropped uniformly),
it is modelled by the projected quadruple list itself, compared for
equality, with `none` standing for the initial `''` (which no serialized
nonempty list equals).  A server's behaviour — whether its handshake
succeeds and which tools it then reports — is an environment parameter. -/

inductive TransportKind
  | stdio
  | http
deriving DecidableEq

/-- `MCPServerConfig` of `mcpLoader.ts`. -/
structure MCPServerConfig where
  name : String
  description : Option String := none
  transport : TransportKind
  command : Option String := none
  args : Option (List String) := none
  env : Option (List (String × String)) := none
  url : Option String := none
  headers : Option (List (String × String)) := none
deriving DecidableEq

/-- The projection of a stdio config that enters the `configHash`:
`{ name, command, args, env }`. -/
structure StdioFingerprint where
  name : String
  command : Option String
  args : Option (List String)
  env : Option (List (String × String))
deriving DecidableEq

def stdioFingerprint (ss : List MCPServerConfig) : List StdioFingerprint :=
  ss.map fun s => ⟨s.name, s.command, s.args, s.env⟩

/-- The runtime environment of one load: the serverless flag and, for each
server name, whether its handshake succeeds and which tool descriptors its
`tools/list` then reports (`none` = the start/handshake throws). -/
structure LoadEnv where
  isServerless : Bool
  stdioBehavior : String → Option (List MCPTool)
  httpBehavior : String → Option (List MCPTool)

/-- The module-level mutable state of `mcpLoader.ts`, plus observation logs:
`startedLog` records every session whose start (handshake + `tools/list`)
completed, in order; `stoppedLog` records the ids of stopped sessions. -/
structure LoaderState where
  globalMCPManager : Option (List ClientSession)
  globalHTTPClients : List (String × ClientSession)
  currentServerConfigs : Option (List StdioFingerprint)
  nextSid : Nat
  startedLog : List ClientSession
  stoppedLog : List Nat
deriving DecidableEq

def initialLoaderState : LoaderState :=
  { globalMCPManager := none
    globalHTTPClients := []
    currentServerConfigs := none
    nextSid := 0
    startedLog := []
    stoppedLog := [] }

/-- The stdio `for` loop of `loadMCPTools`: configs without a `command` are
skipped by `continue`; `MCPManager.addServer` skips names already present,
otherwise constructs and starts an `MCPClient`.  A handshake failure throws
out of the loop (there is no per-server `try` here); the `Bool` result is
`false` when that happened.  Returns the updated state and the manager's
client list. -/
def addStdioServers (env : LoadEnv) :
    LoaderState → List ClientSession → List MCPServerConfig →
    LoaderState × List ClientSession × Bool
  | st, mgr, [] => (st, mgr, true)
  | st, mgr, s :: rest =>
    match s.command with
    | none => addStdioServers env st mgr rest
    | some _ =>
      if mgr.any (fun c => c.serverName == s.name) then
        addStdioServers env st mgr rest
      else
        match env.stdioBehavior s.name with
        | none => (st, mgr, false)
        | some ts =>
          let c : ClientSession := ⟨st.nextSid, s.name, ts⟩
          addStdioServers env
            { st with
                nextSid := st.nextSid + 1
                startedLog := st.startedLog ++ [c] }
            (mgr ++ [c]) rest

/-- Stopping the old manager (`stopAll`) records every one of its sessions
as stopped. -/
def stopOldManager (st : LoaderState) : LoaderState :=
  match st.globalMCPManager with
  | some mgr => { st with stoppedLog := st.stoppedLog ++ mgr.map (·.sid) }
  | none => st

/-- The stdio half of `loadMCPTools`: skipped when there are no stdio
configs or in a serverless environment; otherwise the config hash decides
between reusing the current manager and a stop-all/rebuild.  On a rebuild
the new (possibly partial) manager replaces the global one even when a
handshake threw, and the hash is updated only on full success.  The result
is the `stdioTools` record, or the propagated exception. -/
def runStdioSection (env : LoadEnv) (st : LoaderState)
    (stdioServers : List MCPServerConfig) :
    LoaderState × Except Unit (List (String × ToolDef)) :=
  if stdioServers.isEmpty then (st, .ok [])
  else if env.isServerless then (st, .ok [])
  else
    let fp := stdioFingerprint stdioServers
    if st.currentServerConfigs = some fp then
      (st, .ok (match st.globalMCPManager with
                | some mgr => managerGetAllTools mgr
                | none => []))
    else
      let r := addStdioServers env (stopOldManager st) [] stdioServers
      if r.2.2 then
        ({ r.1 with
            globalMCPManager := some r.2.1
            currentServerConfigs := some fp },
         .ok (managerGetAllTools r.2.1))
      else
        ({ r.1 with globalMCPManager := some r.2.1 }, .error ())

/-- The HTTP `for` loop of `loadMCPTools`: configs without a `url` are
skipped; an existing client in `globalHTTPClients` is reused, otherwise a
new `HTTPMCPClient` is started and cached; each iteration is wrapped in its
own `try`/`catch`, so a failed start only skips that server.  The accumulator
is the `allTools` record being `Object.assign`ed into. -/
def runHttpServers (env : LoadEnv) :
    LoaderState → List (String × ToolDef) → List MCPServerConfig →
    LoaderState × List (String × ToolDef)
  | st, acc, [] => (st, acc)
  | st, acc, s :: rest =>
    match s.url with
    | none => runHttpServers env st acc rest
    | some _ =>
      match rlookup st.globalHTTPClients s.name with
      | some c => runHttpServers env st (rassign acc c.getTools) rest
      | none =>
        match env.httpBehavior s.name with
        | none => runHttpServers env st acc rest
        | some ts =>
          let c : ClientSession := ⟨st.nextSid, s.name, ts⟩
          runHttpServers env
            { st with
                nextSid := st.nextSid + 1
                startedLog := st.startedLog ++ [c]
                globalHTTPClients := rset st.globalHTTPClients s.name c }
            (rassign acc c.getTools) rest

/-- The body of `loadMCPTools` inside its top-level `try`: partition the
configs by transport, run the stdio section (whose exception propagates),
then the HTTP loop. -/
def loadCore (env : LoadEnv) (st : LoaderState) (servers : List MCPServerConfig) :
    LoaderState × Except Unit (List (String × ToolDef)) :=
  let stdioServers := servers.filter (fun s => s.transport == TransportKind.stdio)
  let httpServers := servers.filter (fun s => s.transport == TransportKind.http)
  let r := runStdioSection env st stdioServers
  match r.2 with
  | .error e => (r.1, .error e)
  | .ok stdioTools =>
    let r2 := runHttpServers env r.1 (rassign [] stdioTools) httpServers
    (r2.1, .ok r2.2)

/-- `loadMCPTools`: the whole body runs inside `try { ... } catch { return {} }`,
so a propagated failure becomes the empty tool record. -/
def loadMCPTools (env : LoadEnv) (st : LoaderState) (servers : List MCPServerConfig) :
    LoaderState × List (String × ToolDef) :=
  match loadCore env st servers with
  | (st', .ok m) => (st', m)
  | (st', .error _) => (st', [])

/-! ## Concrete fixtures used by counterexamples and witnesses -/

def toolT : MCPTool := { name := "t" }

def toolU : MCPTool := { name := "u" }

/-- Environment for the C1 counterexample: stdio server `a` handshakes and
reports tool `t`; every other stdio handshake (in particular `b`) fails. -/
def envC1 : LoadEnv :=
  { isServerless := false
    stdioBehavior := fun n => if n == "a" then some [toolT] else none
    httpBehavior := fun _ => none }

def cfgC1a : MCPServerConfig := { name := "a", transport := .stdio, command := some "run-a" }

def cfgC1b : MCPServerConfig := { name := "b", transport := .stdio, command := some "run-b" }

def serversC1 : List MCPServerConfig := [cfgC1a, cfgC1b]

/-- Environment for the C1 witness: both stdio handshakes succeed. -/
def envC1w : LoadEnv :=
  { isServerless := false
    stdioBehavior := fun n =>
      if n == "a" then some [toolT] else if n == "b" then some [toolU] else none
    httpBehavior := fun _ => none }

/-- Environment for the C2 counterexample: stdio `a` and HTTP `c` succeed,
stdio `b` fails its handshake. -/
def envC2 : LoadEnv :=
  { isServerless := false
    stdioBehavior := fun n => if n == "a" then some [toolT] else none
    httpBehavior := fun n => if n == "c" then some [toolU] else none }

def cfgC2a : MCPServerConfig := { name := "a", transport := .stdio, command := some "run-a" }

def cfgC2b : MCPServerConfig := { name := "b", transport := .stdio, command := some "run-b" }

def cfgC2c : MCPServerConfig := { name := "c", transport := .http, url := some "http://c" }

def serversC2 : List MCPServerConfig := [cfgC2a, cfgC2b, cfgC2c]

def serversC2others : List MCPServerConfig := [cfgC2a, cfgC2c]

/-- Environment for the C2 witness: stdio `a` succeeds, HTTP `b` fails its
handshake, HTTP `c` succeeds. -/
def envC2w : LoadEnv :=
  { isServerless := false
    stdioBehavior := fun n => if n == "a" then some [toolT] else none
    httpBehavior := fun n => if n == "c" then some [toolU] else none }

def cfgC2wb : MCPServerConfig := { name := "b", transport := .http, url := some "http://b" }

/-- The schema of the C6 example:
`{"type":"object","properties":{"path":{"type":"string"},"limit":{"type":"number"}},"required":["path"]}`. -/
def exampleSchemaC6 : InputSchema :=
  { stype := "object"
    properties := some [("path", { type? := some "string" }), ("limit", { type? := some "number" })]
    required := some ["path"] }

/-- Environment for the C7 witness: the only stdio handshake fails, so the
core of the load throws. -/
def envC7 : LoadEnv :=
  { isServerless := false
    stdioBehavior := fun _ => none
    httpBehavior := fun _ => none }

def serversC7 : List MCPServerConfig :=
  [{ name := "a", transport := .stdio, command := some "run-a" }]

/-- Environment for the C4 witness: one stdio and one HTTP server, both
succeeding. -/
def envC4 : LoadEnv :=
  { isServerless := false
    stdioBehavior := fun n => if n == "a" then some [toolT] else none
    httpBehavior := fun n => if n == "c" then some [toolU] else none }

def serversC4 : List MCPServerConfig :=
  [{ name := "a", transport := .stdio, command := some "run-a" },
   { name := "c", transport := .http, url := some "http://c" }]

/-- Environment for the C4 counterexample: stdio `a` handshakes and reports
tool `t`; the handshake of stdio `b` always fails. -/
def envC4cex : LoadEnv :=
  { isServerless := false
    stdioBehavior := fun n => if n == "a" then some [toolT] else none
    httpBehavior := fun _ => none }

def serversC4cex : List MCPServerConfig :=
  [{ name := "a", transport := .stdio, command := some "run-a" },
   { name := "b", transport := .stdio, command := some "run-b" }]

/-- Environment for the C5 witness. -/
def envC5 : LoadEnv :=
  { isServerless := false
    stdioBehavior := fun n => if n == "a" then some [toolT] else none
    httpBehavior := fun n => if n == "c" then some [toolU] else none }

def cfgC5s : MCPServerConfig := { name := "a", transport := .stdio, command := some "run-a" }

def cfgC5http : MCPServerConfig := { name := "c", transport := .http, url := some "http://c" }

def cfgC5s2 : MCPServerConfig := { name := "a", transport := .stdio, command := some "run-a2" }

/-- Environment for the C10 witness. -/
def envC10 : LoadEnv :=
  { isServerless := false
    stdioBehavior := fun n => if n == "a" then some [toolT] else none
    httpBehavior := fun _ => none }

def cfgC10s : MCPServerConfig := { name := "x", transport := .stdio }

def cfgC10a : MCPServerConfig := { name := "a", transport := .stdio, command := some "run-a" }

/-- The part of `LoaderState` that the HTTP loop reads and writes (the rest
of the state passes through it untouched). -/
def LoaderState.httpView (st : LoaderState) :
    List (String × ClientSession) × Nat × List ClientSession × List Nat :=
  (st.globalHTTPClients, st.nextSid, st.startedLog, st.stoppedLog)

/-- Invariant of the stdio transport state: pending ids and the send log are
strictly increasing, and no assigned id exceeds the `messageId` counter. -/
def TInv (st : TransportState) : Prop :=
  List.Pairwise (· < ·) (pendingIds st) ∧
  (∀ i ∈ pendingIds st, i ≤ st.messageId) ∧
  List.Pairwise (· < ·) st.sendLog ∧
  (∀ j ∈ st.sendLog, j ≤ st.messageId)

/-! # Theorems -/

/-! ### Record lemmas -/

theorem mem_rkeys_rset {α : Type} (r : List (String × α)) (k k' : String) (v : α) :
    k ∈ rkeys (rset r k' v) ↔ k = k' ∨ k ∈ rkeys r := by
  induction r with
  | nil => simp [rset, rkeys]
  | cons p rest ih =>
    by_cases h : p.1 = k'
    · simp only [rset, if_pos h, rkeys, List.map_cons, List.mem_cons]
      subst h
      tauto
    · simp only [rset, if_neg h, rkeys, List.map_cons, List.mem_cons]
      simp only [rkeys] at ih
      rw [ih]
      tauto

theorem mem_rkeys_rassign {α : Type} (s d : List (String × α)) (k : String) :
    k ∈ rkeys (rassign d s) ↔ k ∈ rkeys d ∨ k ∈ rkeys s := by
  induction s generalizing d with
  | nil => simp [rassign, rkeys]
  | cons p rest ih =>
    simp only [rassign]
    rw [ih, mem_rkeys_rset]
    simp [rkeys]
    tauto

theorem mem_rkeys_getToolsOf (server : String) (ts : List MCPTool) (k : String) :
    k ∈ rkeys (getToolsOf server ts) ↔
      ∃ t ∈ ts, k = "mcp_" ++ server ++ "_" ++ t.name := by
  have general : ∀ (l : List MCPTool) (r : List (String × ToolDef)),
      k ∈ rkeys (l.foldl
        (fun r t => rset r ("mcp_" ++ server ++ "_" ++ t.name) (mkCallableTool server t)) r) ↔
      k ∈ rkeys r ∨ ∃ t ∈ l, k = "mcp_" ++ server ++ "_" ++ t.name := by
    intro l
    induction l with
    | nil => simp
    | cons t rest ih =>
      intro r
      simp only [List.foldl_cons]
      rw [ih, mem_rkeys_rset]
      simp
      tauto
  rw [getToolsOf, general]
  simp [rkeys]

theorem mem_rkeys_managerGetAllTools (clients : List ClientSession) (k : String) :
    k ∈ rkeys (managerGetAllTools clients) ↔
      ∃ c ∈ clients, k ∈ rkeys c.getTools := by
  have general : ∀ (l : List ClientSession) (r : List (String × ToolDef)),
      k ∈ rkeys (l.foldl (fun acc c => rassign acc c.getTools) r) ↔
      k ∈ rkeys r ∨ ∃ c ∈ l, k ∈ rkeys c.getTools := by
    intro l
    induction l with
    | nil => simp
    | cons c rest ih =>
      intro r
      simp only [List.foldl_cons]
      rw [ih, mem_rkeys_rassign]
      simp
      tauto
  rw [managerGetAllTools, general]
  simp [rkeys]

/-! ### Stdio transport lemmas -/

theorem mem_pendingIds_removePending (st : TransportState) (i j : Nat) :
    i ∈ pendingIds (removePending st j) ↔ i ∈ pendingIds st ∧ i ≠ j := by
  simp only [pendingIds, removePending, List.mem_map, List.mem_filter,
    decide_eq_true_eq]
  constructor
  · rintro ⟨e, ⟨he, hne⟩, rfl⟩
    exact ⟨⟨e, he, rfl⟩, hne⟩
  · rintro ⟨⟨e, he, rfl⟩, hne⟩
    exact ⟨e, ⟨he, hne⟩, rfl⟩

theorem any_pending_iff (st : TransportState) (i : Nat) :
    (st.pending.any (fun e => e.id == i) = true) ↔ i ∈ pendingIds st := by
  simp [pendingIds, List.any_eq_true]

theorem handleMessage_fst (st : TransportState) (msg : MCPMessage) :
    (MCPClient.handleMessage st msg).1 = st ∨
      ∃ j, msg.id? = some j ∧ (MCPClient.handleMessage st msg).1 = removePending st j := by
  unfold MCPClient.handleMessage
  rcases hid : msg.id? with _ | j
  · rcases hm : msg.method? with _ | m <;> simp
  · by_cases hp : st.pending.any (fun e => e.id == j) = true
    · rcases he : msg.error? with _ | e <;> simp [hp, he] <;>
        exact Or.inr ⟨j, rfl, rfl⟩
    · rcases hm : msg.method? with _ | m <;> simp [hp, hm]

theorem fireTimeout_fst (st : TransportState) (i : Nat) :
    (MCPClient.fireTimeout st i).1 = st ∨
      (MCPClient.fireTimeout st i).1 = removePending st i := by
  rcases hf : st.pending.find? (fun e => e.id == i) with _ | e <;>
    simp [MCPClient.fireTimeout, hf]

theorem stepT_messageId_mono (st : TransportState) (e : TEvent) :
    st.messageId ≤ (stepT st e).messageId := by
  cases e with
  | send m now =>
    by_cases h : st.running = true <;>
      simp [stepT, MCPClient.sendRequest, h] <;> omega
  | deliver msg =>
    rcases handleMessage_fst st msg with h | ⟨j, _, h⟩ <;>
      simp [stepT, h, removePending]
  | timeout i =>
    rcases fireTimeout_fst st i with h | h <;> simp [stepT, h, removePending]
  | procExit => simp [stepT]

theorem pendingIds_send_pos (st : TransportState) (m : String) (now : Nat)
    (h : st.running = true) :
    pendingIds (stepT st (.send m now)) = pendingIds st ++ [st.messageId + 1] := by
  simp [stepT, MCPClient.sendRequest, h, pendingIds]

theorem stepT_send_neg (st : TransportState) (m : String) (now : Nat)
    (h : ¬ st.running = true) : stepT st (.send m now) = st := by
  simp [stepT, MCPClient.sendRequest, h]

theorem tinv_removePending (st : TransportState) (i : Nat) (h : TInv st) :
    TInv (removePending st i) := by
  obtain ⟨h1, h2, h3, h4⟩ := h
  have hsub : List.Sublist (pendingIds (removePending st i)) (pendingIds st) :=
    (List.filter_sublist _).map _
  refine ⟨h1.sublist hsub, ?_, h3, h4⟩
  intro j hj
  exact h2 j (hsub.subset hj)

theorem tinv_step (st : TransportState) (e : TEvent) (h : TInv st) :
    TInv (stepT st e) := by
  obtain ⟨h1, h2, h3, h4⟩ := h
  cases e with
  | send m now =>
    by_cases hr : st.running = true
    · refine ⟨?_, ?_, ?_, ?_⟩ <;>
        simp only [stepT, MCPClient.sendRequest, hr, if_pos, pendingIds,
          List.map_append, List.map_cons, List.map_nil]
      · rw [List.pairwise_append]
        refine ⟨h1, List.pairwise_singleton _ _, ?_⟩
        intro a ha b hb
        simp only [List.mem_singleton] at hb
        subst hb
        exact Nat.lt_succ_of_le (h2 a ha)
      · intro i hi
        rcases List.mem_append.mp hi with hi | hi
        · exact Nat.le_succ_of_le (h2 i hi)
        · simp only [List.mem_singleton] at hi
          omega
      · rw [List.pairwise_append]
        refine ⟨h3, List.pairwise_singleton _ _, ?_⟩
        intro a ha b hb
        simp only [List.mem_singleton] at hb
        subst hb
        exact Nat.lt_succ_of_le (h4 a ha)
      · intro i hi
        rcases List.mem_append.mp hi with hi | hi
        · exact Nat.le_succ_of_le (h4 i hi)
        · simp only [List.mem_singleton] at hi
          omega
    · rw [stepT_send_neg st m now hr]
      exact ⟨h1, h2, h3, h4⟩
  | deliver msg =>
    rcases handleMessage_fst st msg with hf | ⟨j, _, hf⟩
    · simpa [stepT, hf] using ⟨h1, h2, h3, h4⟩
    · simp only [stepT, hf]
      exact tinv_removePending st j ⟨h1, h2, h3, h4⟩
  | timeout i =>
    rcases fireTimeout_fst st i with hf | hf
    · simpa [stepT, hf] using ⟨h1, h2, h3, h4⟩
    · simp only [stepT, hf]
      exact tinv_removePending st i ⟨h1, h2, h3, h4⟩
  | procExit => exact ⟨h1, h2, h3, h4⟩

theorem tinv_init : TInv initTransport := by
  refine ⟨?_, ?_, ?_, ?_⟩ <;> simp [initTransport, pendingIds, TInv]

theorem tinv_exec (st : TransportState) (evs : List TEvent) (h : TInv st) :
    TInv (execT st evs) := by
  induction evs generalizing st with
  | nil => exact h
  | cons e rest ih => exact ih (stepT st e) (tinv_step st e h)

theorem step_remove_cause (st : TransportState) (e : TEvent) (i : Nat)
    (h1 : i ∈ pendingIds st) (h2 : i ∉ pendingIds (stepT st e)) :
    (∃ msg, e = TEvent.deliver msg ∧ msg.id? = some i) ∨ e = TEvent.timeout i := by
  cases e with
  | send m now =>
    exfalso
    by_cases hr : st.running = true
    · rw [pendingIds_send_pos st m now hr] at h2
      exact h2 (List.mem_append.mpr (Or.inl h1))
    · rw [stepT_send_neg st m now hr] at h2
      exact h2 h1
  | deliver msg =>
    rcases handleMessage_fst st msg with hf | ⟨j, hj, hf⟩
    · exact absurd h1 (by simpa [stepT, hf] using h2)
    · left
      refine ⟨msg, rfl, ?_⟩
      simp only [stepT, hf, mem_pendingIds_removePending] at h2
      push_neg at h2
      rw [hj, h2 h1]
  | timeout j =>
    rcases fireTimeout_fst st j with hf | hf
    · exact absurd h1 (by simpa [stepT, hf] using h2)
    · right
      simp only [stepT, hf, mem_pendingIds_removePending] at h2
      push_neg at h2
      rw [h2 h1]
  | procExit => exact absurd h1 (by simpa [stepT] using h2)

theorem gone_mono (st : TransportState) (e : TEvent) (i : Nat)
    (hle : i ≤ st.messageId) (hout : i ∉ pendingIds st) :
    i ≤ (stepT st e).messageId ∧ i ∉ pendingIds (stepT st e) := by
  refine ⟨le_trans hle (stepT_messageId_mono st e), ?_⟩
  cases e with
  | send m now =>
    by_cases hr : st.running = true
    · rw [pendingIds_send_pos st m now hr]
      intro hmem
      rcases List.mem_append.mp hmem with hmem | hmem
      · exact hout hmem
      · simp only [List.mem_singleton] at hmem
        omega
    · rw [stepT_send_neg st m now hr]
      exact hout
  | deliver msg =>
    rcases handleMessage_fst st msg with hf | ⟨j, _, hf⟩ <;>
      simp only [stepT, hf, mem_pendingIds_removePending]
    · exact hout
    · exact fun h => hout h.1
  | timeout j =>
    rcases fireTimeout_fst st j with hf | hf <;>
      simp only [stepT, hf, mem_pendingIds_removePending]
    · exact hout
    · exact fun h => hout h.1
  | procExit => exact hout

theorem removalCount_zero (i : Nat) (st : TransportState) (evs : List TEvent)
    (hle : i ≤ st.messageId) (hout : i ∉ pendingIds st) :
    removalCount i st evs = 0 := by
  induction evs generalizing st with
  | nil => rfl
  | cons e rest ih =>
    obtain ⟨hle', hout'⟩ := gone_mono st e i hle hout
    have hcond : ¬(i ∈ pendingIds st ∧ i ∉ pendingIds (stepT st e)) :=
      fun hx => hout hx.1
    simp only [removalCount, if_neg hcond, Nat.zero_add]
    exact ih (stepT st e) hle' hout'

theorem removalCount_le_one (i : Nat) (st : TransportState) (evs : List TEvent)
    (hinv : TInv st) : removalCount i st evs ≤ 1 := by
  induction evs generalizing st with
  | nil => simp [removalCount]
  | cons e rest ih =>
    by_cases hc : i ∈ pendingIds st ∧ i ∉ pendingIds (stepT st e)
    · have hle : i ≤ st.messageId := hinv.2.1 i hc.1
      have hle' : i ≤ (stepT st e).messageId :=
        le_trans hle (stepT_messageId_mono st e)
      simp only [removalCount, if_pos hc]
      rw [removalCount_zero i (stepT st e) rest hle' hc.2]
    · simp only [removalCount, if_neg hc, Nat.zero_add]
      exact ih (stepT st e) (tinv_step st e hinv)

/-! ### Claim C3 -/

/-- C3: for a process-transport request whose matching response never
arrives, the pending entry is scheduled to time out after exactly the
30-second window (`REQUEST_TIMEOUT_MS = 30000`, deadline `now + 30000`);
when the timeout fires while the entry is still pending, the call is
rejected with `RequestTimeout` and the entry is removed from the pending
table; and a response carrying that id once it is no longer pending falls
through `handleMessage` with no state change and no error. -/
theorem claim_C3_process_timeout (st : TransportState) (m : String) (now : Nat)
    (hrun : st.running = true) :
    REQUEST_TIMEOUT_MS = 30000 ∧
    (MCPClient.sendRequest st m now).2 = some (st.messageId + 1) ∧
    (⟨st.messageId + 1, m, now + 30000⟩ : PendingEntry) ∈
      (MCPClient.sendRequest st m now).1.pending ∧
    (∀ st2 : TransportState,
        st2.pending.find? (fun e => e.id == st.messageId + 1) =
          some ⟨st.messageId + 1, m, now + 30000⟩ →
        MCPClient.fireTimeout st2 (st.messageId + 1) =
          (removePending st2 (st.messageId + 1),
           TimeoutFire.rejected (MCPFailure.requestTimeout m)) ∧
        st.messageId + 1 ∉ pendingIds (removePending st2 (st.messageId + 1))) ∧
    (∀ st3 : TransportState, st.messageId + 1 ∉ pendingIds st3 →
        MCPClient.handleMessage st3
            { id? := some (st.messageId + 1), result? := some "late" } =
          (st3, MsgOutcome.ignored)) := by
  refine ⟨rfl, ?_, ?_, ?_, ?_⟩
  · simp [MCPClient.sendRequest, hrun]
  · simp [MCPClient.sendRequest, hrun, REQUEST_TIMEOUT_MS]
  · intro st2 hfind
    refine ⟨?_, ?_⟩
    · simp [MCPClient.fireTimeout, hfind]
    · simp [mem_pendingIds_removePending]
  · intro st3 hnot
    have hfalse : ¬(st3.pending.any (fun e => e.id == st.messageId + 1) = true) := by
      rw [any_pending_iff]
      exact hnot
    simp [MCPClient.handleMessage, hfalse]

theorem claim_C3_witness :
    (MCPClient.sendRequest initTransport "tools/call" 5).2 = some 1 :=
  (claim_C3_process_timeout initTransport "tools/call" 5 rfl).2.1

/-! ### Claim C9 -/

/-- C9: within one process-transport session (all event interleavings of
sends, message deliveries, timeout firings, and process exit, from a
freshly started transport), request ids are assigned in send order as
strictly increasing integers and never reused; the pending ids are strictly
increasing, so an id is never outstanding twice concurrently; the only
steps that remove a pending id are the delivery of a message carrying that
id or that id's timeout; and along any trace a given id is removed at most
once. -/
theorem claim_C9_id_discipline (evs : List TEvent) :
    List.Pairwise (· < ·) (execT initTransport evs).sendLog ∧
    List.Pairwise (· < ·) (pendingIds (execT initTransport evs)) ∧
    (∀ i e, i ∈ pendingIds (execT initTransport evs) →
        i ∉ pendingIds (stepT (execT initTransport evs) e) →
        (∃ msg, e = TEvent.deliver msg ∧ msg.id? = some i) ∨ e = TEvent.timeout i) ∧
    (∀ i, removalCount i initTransport evs ≤ 1) := by
  have hinv := tinv_exec initTransport evs tinv_init
  exact ⟨hinv.2.2.1, hinv.1,
    fun i e h1 h2 => step_remove_cause _ e i h1 h2,
    fun i => removalCount_le_one i initTransport evs tinv_init⟩

theorem claim_C9_witness :
    (∃ msg, TEvent.timeout 1 = TEvent.deliver msg ∧ msg.id? = some 1) ∨
      TEvent.timeout 1 = TEvent.timeout 1 :=
  (claim_C9_id_discipline [TEvent.send "initialize" 0]).2.2.1 1 (TEvent.timeout 1)
    (by decide) (by decide)

/-! ### Claim C8 -/

/-- C8 counterexample: the process-transport `sendNotification` propagates a
failure to its caller — on a transport whose process is gone it throws
`MCP server ... is not running` instead of swallowing the failure. -/
theorem claim_C8_counterexample :
    MCPClient.sendNotification
        { running := false, messageId := 0, pending := [], sendLog := [] }
        "notifications/initialized" =
      Except.error MCPFailure.notRunning := rfl

/-- C8 amended: the HTTP-transport `sendNotification` never propagates a
failure (its `try`/`catch` swallows every fetch outcome); the
process-transport `sendNotification` returns normally while the process is
running, but raises `notRunning` when the process handle is gone. -/
theorem claim_C8_amended (fetchOutcome : Except String Unit)
    (st : TransportState) (m : String) :
    HTTPMCPClient.sendNotification fetchOutcome = Except.ok () ∧
    (st.running = true → MCPClient.sendNotification st m = Except.ok ()) ∧
    (st.running = false →
      MCPClient.sendNotification st m = Except.error MCPFailure.notRunning) := by
  refine ⟨?_, ?_, ?_⟩
  · cases fetchOutcome <;> rfl
  · intro h
    simp [MCPClient.sendNotification, h]
  · intro h
    simp [MCPClient.sendNotification, h]

theorem claim_C8_witness :
    MCPClient.sendNotification initTransport "notifications/initialized" =
      Except.ok () :=
  (claim_C8_amended (Except.ok ()) initTransport "notifications/initialized").2.1 rfl

/-! ### Stdio loop lemmas -/

theorem any_serverName_iff (mgr : List ClientSession) (n : String) :
    (mgr.any (fun c => c.serverName == n) = true) ↔ ∃ c ∈ mgr, c.serverName = n := by
  simp [List.any_eq_true]

theorem addStdio_cons_skip (env : LoadEnv) (s : MCPServerConfig)
    (rest : List MCPServerConfig) (st : LoaderState) (mgr : List ClientSession)
    (h : s.command = none ∨ mgr.any (fun c => c.serverName == s.name) = true) :
    addStdioServers env st mgr (s :: rest) = addStdioServers env st mgr rest := by
  rcases h with h | h
  · simp [addStdioServers, h]
  · rcases hc : s.command with _ | cmd
    · simp [addStdioServers, hc]
    · simp [addStdioServers, hc, h]

theorem addStdio_cons_fail (env : LoadEnv) (s : MCPServerConfig)
    (rest : List MCPServerConfig) (st : LoaderState) (mgr : List ClientSession)
    (cmd : String) (hc : s.command = some cmd)
    (hdup : ¬(mgr.any (fun c => c.serverName == s.name) = true))
    (hb : env.stdioBehavior s.name = none) :
    addStdioServers env st mgr (s :: rest) = (st, mgr, false) := by
  simp [addStdioServers, hc, hdup, hb]

theorem addStdio_cons_start (env : LoadEnv) (s : MCPServerConfig)
    (rest : List MCPServerConfig) (st : LoaderState) (mgr : List ClientSession)
    (cmd : String) (hc : s.command = some cmd)
    (hdup : ¬(mgr.any (fun c => c.serverName == s.name) = true))
    (ts : List MCPTool) (hb : env.stdioBehavior s.name = some ts) :
    addStdioServers env st mgr (s :: rest) =
      addStdioServers env
        { st with
            nextSid := st.nextSid + 1
            startedLog := st.startedLog ++ [⟨st.nextSid, s.name, ts⟩] }
        (mgr ++ [⟨st.nextSid, s.name, ts⟩]) rest := by
  simp [addStdioServers, hc, hdup, hb]

theorem addStdio_frame (env : LoadEnv) (configs : List MCPServerConfig) :
    ∀ (st : LoaderState) (mgr : List ClientSession),
    (addStdioServers env st mgr configs).1.globalMCPManager = st.globalMCPManager ∧
    (addStdioServers env st mgr configs).1.globalHTTPClients = st.globalHTTPClients ∧
    (addStdioServers env st mgr configs).1.currentServerConfigs = st.currentServerConfigs ∧
    (addStdioServers env st mgr configs).1.stoppedLog = st.stoppedLog := by
  induction configs with
  | nil =>
    intro st mgr
    exact ⟨rfl, rfl, rfl, rfl⟩
  | cons s rest ih =>
    intro st mgr
    rcases hc : s.command with _ | cmd
    · rw [addStdio_cons_skip env s rest st mgr (Or.inl hc)]
      exact ih st mgr
    · by_cases hdup : mgr.any (fun c => c.serverName == s.name) = true
      · rw [addStdio_cons_skip env s rest st mgr (Or.inr hdup)]
        exact ih st mgr
      · rcases hb : env.stdioBehavior s.name with _ | ts
        · rw [addStdio_cons_fail env s rest st mgr cmd hc hdup hb]
          exact ⟨rfl, rfl, rfl, rfl⟩
        · rw [addStdio_cons_start env s rest st mgr cmd hc hdup ts hb]
          exact ih _ _

theorem addStdio_delta (env : LoadEnv) (configs : List MCPServerConfig) :
    ∀ (st : LoaderState) (mgr : List ClientSession), ∃ Δ,
    (addStdioServers env st mgr configs).1.startedLog = st.startedLog ++ Δ ∧
    (addStdioServers env st mgr configs).2.1 = mgr ++ Δ := by
  induction configs with
  | nil =>
    intro st mgr
    exact ⟨[], by simp [addStdioServers], by simp [addStdioServers]⟩
  | cons s rest ih =>
    intro st mgr
    rcases hc : s.command with _ | cmd
    · rw [addStdio_cons_skip env s rest st mgr (Or.inl hc)]
      exact ih st mgr
    · by_cases hdup : mgr.any (fun c => c.serverName == s.name) = true
      · rw [addStdio_cons_skip env s rest st mgr (Or.inr hdup)]
        exact ih st mgr
      · rcases hb : env.stdioBehavior s.name with _ | ts
        · rw [addStdio_cons_fail env s rest st mgr cmd hc hdup hb]
          exact ⟨[], by simp, by simp⟩
        · rw [addStdio_cons_start env s rest st mgr cmd hc hdup ts hb]
          obtain ⟨Δ, h1, h2⟩ := ih
            { st with
                nextSid := st.nextSid + 1
                startedLog := st.startedLog ++ [⟨st.nextSid, s.name, ts⟩] }
            (mgr ++ [⟨st.nextSid, s.name, ts⟩])
          exact ⟨⟨st.nextSid, s.name, ts⟩ :: Δ, h1.trans (by simp), h2.trans (by simp)⟩

theorem addStdio_ok (env : LoadEnv) (configs : List MCPServerConfig)
    (h : ∀ s ∈ configs, s.command = none ∨ env.stdioBehavior s.name ≠ none) :
    ∀ (st : LoaderState) (mgr : List ClientSession),
    (addStdioServers env st mgr configs).2.2 = true := by
  induction configs with
  | nil =>
    intro st mgr
    rfl
  | cons s rest ih =>
    intro st mgr
    have hrest : ∀ x ∈ rest, x.command = none ∨ env.stdioBehavior x.name ≠ none :=
      fun x hx => h x (List.mem_cons_of_mem s hx)
    rcases hc : s.command with _ | cmd
    · rw [addStdio_cons_skip env s rest st mgr (Or.inl hc)]
      exact ih hrest st mgr
    · by_cases hdup : mgr.any (fun c => c.serverName == s.name) = true
      · rw [addStdio_cons_skip env s rest st mgr (Or.inr hdup)]
        exact ih hrest st mgr
      · rcases hb : env.stdioBehavior s.name with _ | ts
        · rcases h s (List.mem_cons_self s rest) with hx | hx
          · rw [hc] at hx
            exact absurd hx (by simp)
          · exact absurd hb hx
        · rw [addStdio_cons_start env s rest st mgr cmd hc hdup ts hb]
          exact ih hrest _ _

theorem addStdio_covers (env : LoadEnv) (configs : List MCPServerConfig)
    (h : ∀ s ∈ configs, s.command = none ∨ env.stdioBehavior s.name ≠ none) :
    ∀ (st : LoaderState) (mgr : List ClientSession) (s : MCPServerConfig),
    s ∈ configs → s.command ≠ none →
    ∃ c ∈ (addStdioServers env st mgr configs).2.1,
      c.serverName = s.name ∧ (st.nextSid ≤ c.sid ∨ c ∈ mgr) := by
  induction configs with
  | nil =>
    intro st mgr s hs
    exact absurd hs (List.not_mem_nil s)
  | cons s0 rest ih =>
    intro st mgr s hs hcmd
    have hrest : ∀ x ∈ rest, x.command = none ∨ env.stdioBehavior x.name ≠ none :=
      fun x hx => h x (List.mem_cons_of_mem s0 hx)
    rcases List.mem_cons.mp hs with rfl | hs'
    · rcases hc : s.command with _ | cmd
      · exact absurd hc hcmd
      · by_cases hdup : mgr.any (fun c => c.serverName == s.name) = true
        · obtain ⟨c, hcmem, hcname⟩ := (any_serverName_iff mgr s.name).mp hdup
          rw [addStdio_cons_skip env s rest st mgr (Or.inr hdup)]
          obtain ⟨Δ, _, h2⟩ := addStdio_delta env rest st mgr
          refine ⟨c, ?_, hcname, Or.inr hcmem⟩
          rw [h2]
          exact List.mem_append.mpr (Or.inl hcmem)
        · rcases hb : env.stdioBehavior s.name with _ | ts
          · rcases h s (List.mem_cons_self s rest) with hx | hx
            · rw [hc] at hx
              exact absurd hx (by simp)
            · exact absurd hb hx
          · rw [addStdio_cons_start env s rest st mgr cmd hc hdup ts hb]
            obtain ⟨Δ, _, h2⟩ := addStdio_delta env rest
              { st with
                  nextSid := st.nextSid + 1
                  startedLog := st.startedLog ++ [⟨st.nextSid, s.name, ts⟩] }
              (mgr ++ [⟨st.nextSid, s.name, ts⟩])
            refine ⟨⟨st.nextSid, s.name, ts⟩, ?_, rfl, Or.inl (le_refl _)⟩
            rw [h2]
            exact List.mem_append.mpr (Or.inl (List.mem_append.mpr (Or.inr (by simp))))
    · rcases hc : s0.command with _ | cmd
      · rw [addStdio_cons_skip env s0 rest st mgr (Or.inl hc)]
        exact ih hrest st mgr s hs' hcmd
      · by_cases hdup : mgr.any (fun c => c.serverName == s0.name) = true
        · rw [addStdio_cons_skip env s0 rest st mgr (Or.inr hdup)]
          exact ih hrest st mgr s hs' hcmd
        · rcases hb : env.stdioBehavior s0.name with _ | ts
          · rcases h s0 (List.mem_cons_self s0 rest) with hx | hx
            · rw [hc] at hx
              exact absurd hx (by simp)
            · exact absurd hb hx
          · rw [addStdio_cons_start env s0 rest st mgr cmd hc hdup ts hb]
            obtain ⟨c, hcmem, hcname, hcsid⟩ := ih hrest
              { st with
                  nextSid := st.nextSid + 1
                  startedLog := st.startedLog ++ [⟨st.nextSid, s0.name, ts⟩] }
              (mgr ++ [⟨st.nextSid, s0.name, ts⟩]) s hs' hcmd
            refine ⟨c, hcmem, hcname, ?_⟩
            rcases hcsid with hle | hmem
            · exact Or.inl (le_trans (Nat.le_succ _) hle)
            · rcases List.mem_append.mp hmem with hmem | hmem
              · exact Or.inr hmem
              · simp only [List.mem_singleton] at hmem
                subst hmem
                exact Or.inl (le_refl _)

theorem addStdio_started_names (env : LoadEnv) (configs : List MCPServerConfig) :
    ∀ (st : LoaderState) (mgr : List ClientSession) (c : ClientSession),
    c ∈ (addStdioServers env st mgr configs).1.startedLog →
    c ∈ st.startedLog ∨ c.serverName ∈ configs.map (·.name) := by
  induction configs with
  | nil =>
    intro st mgr c hmem
    exact Or.inl hmem
  | cons s rest ih =>
    intro st mgr c hmem
    rcases hc : s.command with _ | cmd
    · rw [addStdio_cons_skip env s rest st mgr (Or.inl hc)] at hmem
      rcases ih st mgr c hmem with hx | hx
      · exact Or.inl hx
      · exact Or.inr (by simp [hx])
    · by_cases hdup : mgr.any (fun c => c.serverName == s.name) = true
      · rw [addStdio_cons_skip env s rest st mgr (Or.inr hdup)] at hmem
        rcases ih st mgr c hmem with hx | hx
        · exact Or.inl hx
        · exact Or.inr (by simp [hx])
      · rcases hb : env.stdioBehavior s.name with _ | ts
        · rw [addStdio_cons_fail env s rest st mgr cmd hc hdup hb] at hmem
          exact Or.inl hmem
        · rw [addStdio_cons_start env s rest st mgr cmd hc hdup ts hb] at hmem
          rcases ih _ _ c hmem with hx | hx
          · rcases List.mem_append.mp hx with hx | hx
            · exact Or.inl hx
            · simp only [List.mem_singleton] at hx
              subst hx
              exact Or.inr (by simp)
          · exact Or.inr (by simp [hx])

theorem addStdio_skip_mid (env : LoadEnv) (s : MCPServerConfig)
    (hc : s.command = none) (A B : List MCPServerConfig) :
    ∀ (st : LoaderState) (mgr : List ClientSession),
    addStdioServers env st mgr (A ++ s :: B) = addStdioServers env st mgr (A ++ B) := by
  induction A with
  | nil =>
    intro st mgr
    exact addStdio_cons_skip env s B st mgr (Or.inl hc)
  | cons a A' ih =>
    intro st mgr
    rcases ha : a.command with _ | cmd
    · rw [List.cons_append, addStdio_cons_skip env a (A' ++ s :: B) st mgr (Or.inl ha),
        List.cons_append, addStdio_cons_skip env a (A' ++ B) st mgr (Or.inl ha)]
      exact ih st mgr
    · by_cases hdup : mgr.any (fun c => c.serverName == a.name) = true
      · rw [List.cons_append, addStdio_cons_skip env a (A' ++ s :: B) st mgr (Or.inr hdup),
          List.cons_append, addStdio_cons_skip env a (A' ++ B) st mgr (Or.inr hdup)]
        exact ih st mgr
      · rcases hb : env.stdioBehavior a.name with _ | ts
        · rw [List.cons_append, addStdio_cons_fail env a (A' ++ s :: B) st mgr cmd ha hdup hb,
            List.cons_append, addStdio_cons_fail env a (A' ++ B) st mgr cmd ha hdup hb]
        · rw [List.cons_append, addStdio_cons_start env a (A' ++ s :: B) st mgr cmd ha hdup ts hb,
            List.cons_append, addStdio_cons_start env a (A' ++ B) st mgr cmd ha hdup ts hb]
          exact ih _ _

/-! ### Record entry lemmas -/

theorem mem_rset_entries {α : Type} (r : List (String × α)) (k : String) (v : α)
    (p : String × α) (h : p ∈ rset r k v) : p ∈ r ∨ p = (k, v) := by
  induction r with
  | nil =>
    simp only [rset, List.mem_singleton] at h
    exact Or.inr h
  | cons q rest ih =>
    by_cases hq : q.1 = k
    · simp only [rset, if_pos hq, List.mem_cons] at h
      rcases h with h | h
      · exact Or.inr h
      · exact Or.inl (List.mem_cons_of_mem q h)
    · simp only [rset, if_neg hq, List.mem_cons] at h
      rcases h with h | h
      · exact Or.inl (h ▸ List.mem_cons_self q rest)
      · rcases ih h with hx | hx
        · exact Or.inl (List.mem_cons_of_mem q hx)
        · exact Or.inr hx

theorem rlookup_cons {α : Type} (p : String × α) (rest : List (String × α)) (k : String) :
    rlookup (p :: rest) k = if p.1 = k then some p.2 else rlookup rest k := by
  by_cases h : p.1 = k <;> simp [rlookup, List.find?_cons, h]

theorem rlookup_eq_none_iff {α : Type} (r : List (String × α)) (k : String) :
    rlookup r k = none ↔ k ∉ rkeys r := by
  induction r with
  | nil => simp [rlookup, rkeys]
  | cons p rest ih =>
    rw [rlookup_cons]
    by_cases hp : p.1 = k
    · simp [hp, rkeys]
    · simp only [if_neg hp, rkeys, List.map_cons, List.mem_cons]
      rw [ih]
      simp only [rkeys]
      constructor
      · intro h hx
        rcases hx with hx | hx
        · exact hp hx.symm
        · exact h hx
      · intro h hx
        exact h (Or.inr hx)

theorem rlookup_mem {α : Type} (r : List (String × α)) (k : String) (c : α)
    (h : rlookup r k = some c) : (k, c) ∈ r := by
  induction r with
  | nil => simp [rlookup] at h
  | cons p rest ih =>
    rw [rlookup_cons] at h
    by_cases hp : p.1 = k
    · rw [if_pos hp] at h
      have hc : c = p.2 := by
        injection h with h
        exact h.symm
      subst hc
      subst hp
      exact List.mem_cons_self _ _
    · rw [if_neg hp] at h
      exact List.mem_cons_of_mem p (ih h)

/-! ### HTTP loop lemmas -/

theorem runHttp_cons_nourl (env : LoadEnv) (s : MCPServerConfig)
    (rest : List MCPServerConfig) (st : LoaderState) (acc : List (String × ToolDef))
    (hu : s.url = none) :
    runHttpServers env st acc (s :: rest) = runHttpServers env st acc rest := by
  simp [runHttpServers, hu]

theorem runHttp_cons_found (env : LoadEnv) (s : MCPServerConfig)
    (rest : List MCPServerConfig) (st : LoaderState) (acc : List (String × ToolDef))
    (u : String) (hu : s.url = some u) (c : ClientSession)
    (hf : rlookup st.globalHTTPClients s.name = some c) :
    runHttpServers env st acc (s :: rest) =
      runHttpServers env st (rassign acc c.getTools) rest := by
  simp [runHttpServers, hu, hf]

theorem runHttp_cons_fail (env : LoadEnv) (s : MCPServerConfig)
    (rest : List MCPServerConfig) (st : LoaderState) (acc : List (String × ToolDef))
    (u : String) (hu : s.url = some u)
    (hf : rlookup st.globalHTTPClients s.name = none)
    (hb : env.httpBehavior s.name = none) :
    runHttpServers env st acc (s :: rest) = runHttpServers env st acc rest := by
  simp [runHttpServers, hu, hf, hb]

theorem runHttp_cons_start (env : LoadEnv) (s : MCPServerConfig)
    (rest : List MCPServerConfig) (st : LoaderState) (acc : List (String × ToolDef))
    (u : String) (hu : s.url = some u)
    (hf : rlookup st.globalHTTPClients s.name = none)
    (ts : List MCPTool) (hb : env.httpBehavior s.name = some ts) :
    runHttpServers env st acc (s :: rest) =
      runHttpServers env
        { st with
            nextSid := st.nextSid + 1
            startedLog := st.startedLog ++ [⟨st.nextSid, s.name, ts⟩]
            globalHTTPClients := rset st.globalHTTPClients s.name ⟨st.nextSid, s.name, ts⟩ }
        (rassign acc (ClientSession.getTools ⟨st.nextSid, s.name, ts⟩)) rest := by
  simp [runHttpServers, hu, hf, hb]

theorem runHttp_frame (env : LoadEnv) (configs : List MCPServerConfig) :
    ∀ (st : LoaderState) (acc : List (String × ToolDef)),
    (runHttpServers env st acc configs).1.globalMCPManager = st.globalMCPManager ∧
    (runHttpServers env st acc configs).1.currentServerConfigs = st.currentServerConfigs ∧
    (runHttpServers env st acc configs).1.stoppedLog = st.stoppedLog := by
  induction configs with
  | nil =>
    intro st acc
    exact ⟨rfl, rfl, rfl⟩
  | cons s rest ih =>
    intro st acc
    rcases hu : s.url with _ | u
    · rw [runHttp_cons_nourl env s rest st acc hu]
      exact ih st acc
    · rcases hf : rlookup st.globalHTTPClients s.name with _ | c
      · rcases hb : env.httpBehavior s.name with _ | ts
        · rw [runHttp_cons_fail env s rest st acc u hu hf hb]
          exact ih st acc
        · rw [runHttp_cons_start env s rest st acc u hu hf ts hb]
          exact ih _ _
      · rw [runHttp_cons_found env s rest st acc u hu c hf]
        exact ih st _

theorem runHttp_map_mono (env : LoadEnv) (configs : List MCPServerConfig) :
    ∀ (st : LoaderState) (acc : List (String × ToolDef)) (k : String),
    k ∈ rkeys st.globalHTTPClients →
    k ∈ rkeys (runHttpServers env st acc configs).1.globalHTTPClients := by
  induction configs with
  | nil =>
    intro st acc k hk
    exact hk
  | cons s rest ih =>
    intro st acc k hk
    rcases hu : s.url with _ | u
    · rw [runHttp_cons_nourl env s rest st acc hu]
      exact ih st acc k hk
    · rcases hf : rlookup st.globalHTTPClients s.name with _ | c
      · rcases hb : env.httpBehavior s.name with _ | ts
        · rw [runHttp_cons_fail env s rest st acc u hu hf hb]
          exact ih st acc k hk
        · rw [runHttp_cons_start env s rest st acc u hu hf ts hb]
          refine ih _ _ k ?_
          rw [mem_rkeys_rset]
          exact Or.inr hk
      · rw [runHttp_cons_found env s rest st acc u hu c hf]
        exact ih st _ k hk

theorem runHttp_post (env : LoadEnv) (configs : List MCPServerConfig) :
    ∀ (st : LoaderState) (acc : List (String × ToolDef)),
    ∀ s ∈ configs, s.url ≠ none →
    (s.name ∈ rkeys (runHttpServers env st acc configs).1.globalHTTPClients ∨
      env.httpBehavior s.name = none) := by
  induction configs with
  | nil =>
    intro st acc s hs
    exact absurd hs (List.not_mem_nil s)
  | cons s0 rest ih =>
    intro st acc s hs hurl
    rcases List.mem_cons.mp hs with rfl | hs'
    · rcases hu : s.url with _ | u
      · exact absurd hu hurl
      · rcases hf : rlookup st.globalHTTPClients s.name with _ | c
        · rcases hb : env.httpBehavior s.name with _ | ts
          · exact Or.inr rfl
          · rw [runHttp_cons_start env s rest st acc u hu hf ts hb]
            refine Or.inl (runHttp_map_mono env rest _ _ s.name ?_)
            rw [mem_rkeys_rset]
            exact Or.inl rfl
        · rw [runHttp_cons_found env s rest st acc u hu c hf]
          refine Or.inl (runHttp_map_mono env rest st _ s.name ?_)
          by_contra hmem
          rw [(rlookup_eq_none_iff st.globalHTTPClients s.name).mpr hmem] at hf
          exact Option.noConfusion hf
    · rcases hu : s0.url with _ | u
      · rw [runHttp_cons_nourl env s0 rest st acc hu]
        exact ih st acc s hs' hurl
      · rcases hf : rlookup st.globalHTTPClients s0.name with _ | c
        · rcases hb : env.httpBehavior s0.name with _ | ts
          · rw [runHttp_cons_fail env s0 rest st acc u hu hf hb]
            exact ih st acc s hs' hurl
          · rw [runHttp_cons_start env s0 rest st acc u hu hf ts hb]
            exact ih _ _ s hs' hurl
        · rw [runHttp_cons_found env s0 rest st acc u hu c hf]
          exact ih st _ s hs' hurl

theorem runHttp_frozen (env : LoadEnv) (configs : List MCPServerConfig) :
    ∀ (st : LoaderState) (acc : List (String × ToolDef)),
    (∀ s ∈ configs, s.url = none ∨ s.name ∈ rkeys st.globalHTTPClients ∨
      env.httpBehavior s.name = none) →
    (runHttpServers env st acc configs).1 = st := by
  induction configs with
  | nil =>
    intro st acc _
    rfl
  | cons s0 rest ih =>
    intro st acc h
    have hrest : ∀ s ∈ rest, s.url = none ∨ s.name ∈ rkeys st.globalHTTPClients ∨
        env.httpBehavior s.name = none :=
      fun s hs => h s (List.mem_cons_of_mem s0 hs)
    rcases hu : s0.url with _ | u
    · rw [runHttp_cons_nourl env s0 rest st acc hu]
      exact ih st acc hrest
    · rcases h s0 (List.mem_cons_self s0 rest) with hx | hx | hx
      · exact absurd hu (by simp [hx])
      · obtain ⟨c, hc⟩ : ∃ c, rlookup st.globalHTTPClients s0.name = some c := by
          rcases hlk : rlookup st.globalHTTPClients s0.name with _ | c
          · exact absurd ((rlookup_eq_none_iff _ _).mp hlk) (by simpa using hx)
          · exact ⟨c, rfl⟩
        rw [runHttp_cons_found env s0 rest st acc u hu c hc]
        exact ih st _ hrest
      · rcases hf : rlookup st.globalHTTPClients s0.name with _ | c
        · rw [runHttp_cons_fail env s0 rest st acc u hu hf hx]
          exact ih st acc hrest
        · rw [runHttp_cons_found env s0 rest st acc u hu c hf]
          exact ih st _ hrest

theorem runHttp_keyset (env : LoadEnv) (configs : List MCPServerConfig) :
    ∀ (st : LoaderState) (acc : List (String × ToolDef)),
    (∀ p ∈ st.globalHTTPClients, p.2 ∈ st.startedLog) →
    (∀ k, k ∈ rkeys acc ↔ ∃ c ∈ st.startedLog, k ∈ rkeys c.getTools) →
    (∀ k, k ∈ rkeys (runHttpServers env st acc configs).2 ↔
      ∃ c ∈ (runHttpServers env st acc configs).1.startedLog, k ∈ rkeys c.getTools) := by
  induction configs with
  | nil =>
    intro st acc _ hacc
    exact hacc
  | cons s rest ih =>
    intro st acc hmap hacc
    rcases hu : s.url with _ | u
    · rw [runHttp_cons_nourl env s rest st acc hu]
      exact ih st acc hmap hacc
    · rcases hf : rlookup st.globalHTTPClients s.name with _ | c
      · rcases hb : env.httpBehavior s.name with _ | ts
        · rw [runHttp_cons_fail env s rest st acc u hu hf hb]
          exact ih st acc hmap hacc
        · rw [runHttp_cons_start env s rest st acc u hu hf ts hb]
          refine ih _ _ ?_ ?_
          · intro p hp
            rcases mem_rset_entries _ _ _ p hp with hx | hx
            · exact List.mem_append.mpr (Or.inl (hmap p hx))
            · rw [hx]
              exact List.mem_append.mpr (Or.inr (by simp))
          · intro k
            rw [mem_rkeys_rassign, hacc k]
            constructor
            · rintro (⟨c, hc, hk⟩ | hk)
              · exact ⟨c, List.mem_append.mpr (Or.inl hc), hk⟩
              · exact ⟨_, List.mem_append.mpr (Or.inr (by simp)), hk⟩
            · rintro ⟨c, hc, hk⟩
              rcases List.mem_append.mp hc with hc | hc
              · exact Or.inl ⟨c, hc, hk⟩
              · simp only [List.mem_singleton] at hc
                subst hc
                exact Or.inr hk
      · rw [runHttp_cons_found env s rest st acc u hu c hf]
        refine ih st _ hmap ?_
        intro k
        rw [mem_rkeys_rassign, hacc k]
        constructor
        · rintro (⟨c', hc', hk⟩ | hk)
          · exact ⟨c', hc', hk⟩
          · exact ⟨c, hmap (s.name, c) (rlookup_mem _ _ _ hf), hk⟩
        · rintro ⟨c', hc', hk⟩
          exact Or.inl ⟨c', hc', hk⟩

theorem runHttp_started_names (env : LoadEnv) (configs : List MCPServerConfig) :
    ∀ (st : LoaderState) (acc : List (String × ToolDef)) (c : ClientSession),
    c ∈ (runHttpServers env st acc configs).1.startedLog →
    c ∈ st.startedLog ∨ c.serverName ∈ configs.map (·.name) := by
  induction configs with
  | nil =>
    intro st acc c hmem
    exact Or.inl hmem
  | cons s rest ih =>
    intro st acc c hmem
    rcases hu : s.url with _ | u
    · rw [runHttp_cons_nourl env s rest st acc hu] at hmem
      rcases ih st acc c hmem with hx | hx
      · exact Or.inl hx
      · exact Or.inr (by simp [hx])
    · rcases hf : rlookup st.globalHTTPClients s.name with _ | c'
      · rcases hb : env.httpBehavior s.name with _ | ts
        · rw [runHttp_cons_fail env s rest st acc u hu hf hb] at hmem
          rcases ih st acc c hmem with hx | hx
          · exact Or.inl hx
          · exact Or.inr (by simp [hx])
        · rw [runHttp_cons_start env s rest st acc u hu hf ts hb] at hmem
          rcases ih _ _ c hmem with hx | hx
          · rcases List.mem_append.mp hx with hx | hx
            · exact Or.inl hx
            · simp only [List.mem_singleton] at hx
              subst hx
              exact Or.inr (by simp)
          · exact Or.inr (by simp [hx])
      · rw [runHttp_cons_found env s rest st acc u hu c' hf] at hmem
        rcases ih st _ c hmem with hx | hx
        · exact Or.inl hx
        · exact Or.inr (by simp [hx])

theorem runHttp_skip_urlNone (env : LoadEnv) (s : MCPServerConfig)
    (hu : s.url = none) (A B : List MCPServerConfig) :
    ∀ (st : LoaderState) (acc : List (String × ToolDef)),
    runHttpServers env st acc (A ++ s :: B) = runHttpServers env st acc (A ++ B) := by
  induction A with
  | nil =>
    intro st acc
    exact runHttp_cons_nourl env s B st acc hu
  | cons a A' ih =>
    intro st acc
    rcases ha : a.url with _ | u
    · rw [List.cons_append, runHttp_cons_nourl env a (A' ++ s :: B) st acc ha,
        List.cons_append, runHttp_cons_nourl env a (A' ++ B) st acc ha]
      exact ih st acc
    · rcases hf : rlookup st.globalHTTPClients a.name with _ | c
      · rcases hb : env.httpBehavior a.name with _ | ts
        · rw [List.cons_append, runHttp_cons_fail env a (A' ++ s :: B) st acc u ha hf hb,
            List.cons_append, runHttp_cons_fail env a (A' ++ B) st acc u ha hf hb]
          exact ih st acc
        · rw [List.cons_append, runHttp_cons_start env a (A' ++ s :: B) st acc u ha hf ts hb,
            List.cons_append, runHttp_cons_start env a (A' ++ B) st acc u ha hf ts hb]
          exact ih _ _
      · rw [List.cons_append, runHttp_cons_found env a (A' ++ s :: B) st acc u ha c hf,
          List.cons_append, runHttp_cons_found env a (A' ++ B) st acc u ha c hf]
        exact ih st _

theorem runHttp_skip_failing (env : LoadEnv) (s : MCPServerConfig)
    (hb : env.httpBehavior s.name = none) (A B : List MCPServerConfig)
    (hA : ∀ a ∈ A, a.name ≠ s.name) :
    ∀ (st : LoaderState) (acc : List (String × ToolDef)),
    s.name ∉ rkeys st.globalHTTPClients →
    runHttpServers env st acc (A ++ s :: B) = runHttpServers env st acc (A ++ B) := by
  induction A with
  | nil =>
    intro st acc hnm
    simp only [List.nil_append]
    rcases hu : s.url with _ | u
    · rw [runHttp_cons_nourl env s B st acc hu]
    · exact runHttp_cons_fail env s B st acc u hu
        ((rlookup_eq_none_iff _ _).mpr hnm) hb
  | cons a A' ih =>
    intro st acc hnm
    have hA' : ∀ x ∈ A', x.name ≠ s.name :=
      fun x hx => hA x (List.mem_cons_of_mem a hx)
    rcases ha : a.url with _ | u
    · rw [List.cons_append, runHttp_cons_nourl env a (A' ++ s :: B) st acc ha,
        List.cons_append, runHttp_cons_nourl env a (A' ++ B) st acc ha]
      exact ih hA' st acc hnm
    · rcases hf : rlookup st.globalHTTPClients a.name with _ | c
      · rcases hab : env.httpBehavior a.name with _ | ts
        · rw [List.cons_append, runHttp_cons_fail env a (A' ++ s :: B) st acc u ha hf hab,
            List.cons_append, runHttp_cons_fail env a (A' ++ B) st acc u ha hf hab]
          exact ih hA' st acc hnm
        · rw [List.cons_append, runHttp_cons_start env a (A' ++ s :: B) st acc u ha hf ts hab,
            List.cons_append, runHttp_cons_start env a (A' ++ B) st acc u ha hf ts hab]
          refine ih hA' _ _ ?_
          rw [mem_rkeys_rset]
          rintro (hx | hx)
          · exact hA a (List.mem_cons_self a A') hx.symm
          · exact hnm hx
      · rw [List.cons_append, runHttp_cons_found env a (A' ++ s :: B) st acc u ha c hf,
          List.cons_append, runHttp_cons_found env a (A' ++ B) st acc u ha c hf]
        exact ih hA' st _ hnm

theorem runHttp_view (env : LoadEnv) (configs : List MCPServerConfig) :
    ∀ (st st' : LoaderState) (acc : List (String × ToolDef)),
    st.globalHTTPClients = st'.globalHTTPClients →
    st.nextSid = st'.nextSid →
    st.startedLog = st'.startedLog →
    st.stoppedLog = st'.stoppedLog →
    (runHttpServers env st acc configs).2 = (runHttpServers env st' acc configs).2 ∧
    (runHttpServers env st acc configs).1.httpView =
      (runHttpServers env st' acc configs).1.httpView := by
  induction configs with
  | nil =>
    intro st st' acc h1 h2 h3 h4
    exact ⟨rfl, by simp [runHttpServers, LoaderState.httpView, h1, h2, h3, h4]⟩
  | cons s rest ih =>
    intro st st' acc h1 h2 h3 h4
    rcases hu : s.url with _ | u
    · rw [runHttp_cons_nourl env s rest st acc hu, runHttp_cons_nourl env s rest st' acc hu]
      exact ih st st' acc h1 h2 h3 h4
    · rcases hf : rlookup st.globalHTTPClients s.name with _ | c
      · have hf' : rlookup st'.globalHTTPClients s.name = none := h1 ▸ hf
        rcases hb : env.httpBehavior s.name with _ | ts
        · rw [runHttp_cons_fail env s rest st acc u hu hf hb,
            runHttp_cons_fail env s rest st' acc u hu hf' hb]
          exact ih st st' acc h1 h2 h3 h4
        · rw [runHttp_cons_start env s rest st acc u hu hf ts hb,
            runHttp_cons_start env s rest st' acc u hu hf' ts hb]
          rw [h2]
          exact ih _ _ _ (by simp [h1, h2]) (by simp [h2]) (by simp [h3, h2]) (by simp [h4])
      · have hf' : rlookup st'.globalHTTPClients s.name = some c := h1 ▸ hf
        rw [runHttp_cons_found env s rest st acc u hu c hf,
          runHttp_cons_found env s rest st' acc u hu c hf']
        exact ih st st' _ h1 h2 h3 h4

/-! ### Stdio section and loader composition lemmas -/

theorem section_empty (env : LoadEnv) (st : LoaderState)
    (ss : List MCPServerConfig) (he : ss.isEmpty = true) :
    runStdioSection env st ss = (st, Except.ok []) := by
  simp [runStdioSection, he]

theorem section_serverless (env : LoadEnv) (st : LoaderState)
    (ss : List MCPServerConfig) (he : ss.isEmpty = false)
    (hsl : env.isServerless = true) :
    runStdioSection env st ss = (st, Except.ok []) := by
  simp [runStdioSection, he, hsl]

theorem section_reuse (env : LoadEnv) (st : LoaderState)
    (ss : List MCPServerConfig) (he : ss.isEmpty = false)
    (hsl : env.isServerless = false)
    (heq : st.currentServerConfigs = some (stdioFingerprint ss)) :
    runStdioSection env st ss =
      (st, Except.ok (match st.globalMCPManager with
                      | some mgr => managerGetAllTools mgr
                      | none => [])) := by
  simp [runStdioSection, he, hsl, heq]

theorem section_rebuild_ok (env : LoadEnv) (st : LoaderState)
    (ss : List MCPServerConfig) (he : ss.isEmpty = false)
    (hsl : env.isServerless = false)
    (hne : ¬ st.currentServerConfigs = some (stdioFingerprint ss))
    (hok : (addStdioServers env (stopOldManager st) [] ss).2.2 = true) :
    runStdioSection env st ss =
      ({ (addStdioServers env (stopOldManager st) [] ss).1 with
          globalMCPManager := some (addStdioServers env (stopOldManager st) [] ss).2.1
          currentServerConfigs := some (stdioFingerprint ss) },
       Except.ok (managerGetAllTools (addStdioServers env (stopOldManager st) [] ss).2.1)) := by
  simp [runStdioSection, he, hsl, hne, hok]

theorem section_rebuild_err (env : LoadEnv) (st : LoaderState)
    (ss : List MCPServerConfig) (he : ss.isEmpty = false)
    (hsl : env.isServerless = false)
    (hne : ¬ st.currentServerConfigs = some (stdioFingerprint ss))
    (hok : (addStdioServers env (stopOldManager st) [] ss).2.2 = false) :
    runStdioSection env st ss =
      ({ (addStdioServers env (stopOldManager st) [] ss).1 with
          globalMCPManager := some (addStdioServers env (stopOldManager st) [] ss).2.1 },
       Except.error ()) := by
  simp [runStdioSection, he, hsl, hne, hok]

theorem loadCore_ok_eq (env : LoadEnv) (st S1 : LoaderState)
    (servers : List MCPServerConfig) (tools : List (String × ToolDef))
    (h : runStdioSection env st
        (servers.filter (fun s => s.transport == TransportKind.stdio)) =
      (S1, Except.ok tools)) :
    loadCore env st servers =
      ((runHttpServers env S1 (rassign [] tools)
          (servers.filter (fun s => s.transport == TransportKind.http))).1,
       Except.ok (runHttpServers env S1 (rassign [] tools)
          (servers.filter (fun s => s.transport == TransportKind.http))).2) := by
  simp [loadCore, h]

theorem loadCore_err_eq (env : LoadEnv) (st S1 : LoaderState)
    (servers : List MCPServerConfig)
    (h : runStdioSection env st
        (servers.filter (fun s => s.transport == TransportKind.stdio)) =
      (S1, Except.error ())) :
    loadCore env st servers = (S1, Except.error ()) := by
  simp [loadCore, h]

theorem loadMCPTools_of_ok (env : LoadEnv) (st S : LoaderState)
    (servers : List MCPServerConfig) (m : List (String × ToolDef))
    (h : loadCore env st servers = (S, Except.ok m)) :
    loadMCPTools env st servers = (S, m) := by
  simp [loadMCPTools, h]

theorem loadMCPTools_of_err (env : LoadEnv) (st S : LoaderState)
    (servers : List MCPServerConfig)
    (h : loadCore env st servers = (S, Except.error ())) :
    loadMCPTools env st servers = (S, []) := by
  simp [loadMCPTools, h]

theorem load_initial_keyset (env : LoadEnv) (servers : List MCPServerConfig)
    (hs : ∀ s ∈ servers, s.transport = TransportKind.stdio →
        s.command = none ∨ env.stdioBehavior s.name ≠ none) (k : String) :
    k ∈ rkeys (loadMCPTools env initialLoaderState servers).2 ↔
      ∃ c ∈ (loadMCPTools env initialLoaderState servers).1.startedLog,
        k ∈ rkeys c.getTools := by
  have hsucc : ∀ s ∈ servers.filter (fun s => s.transport == TransportKind.stdio),
      s.command = none ∨ env.stdioBehavior s.name ≠ none := by
    intro s hx
    have h1 := List.mem_filter.mp hx
    exact hs s h1.1 (by simpa using h1.2)
  obtain ⟨S1, tools, hsec, hkeys, hmapnil⟩ :
      ∃ S1 tools,
        runStdioSection env initialLoaderState
          (servers.filter (fun s => s.transport == TransportKind.stdio)) =
          (S1, Except.ok tools) ∧
        (∀ k2, k2 ∈ rkeys tools ↔ ∃ c ∈ S1.startedLog, k2 ∈ rkeys c.getTools) ∧
        S1.globalHTTPClients = [] := by
    by_cases he : (servers.filter (fun s => s.transport == TransportKind.stdio)).isEmpty = true
    · refine ⟨initialLoaderState, [], section_empty env _ _ he, ?_, rfl⟩
      intro k2
      simp [rkeys, initialLoaderState]
    · have he' : (servers.filter (fun s => s.transport == TransportKind.stdio)).isEmpty = false := by
        simpa using he
      by_cases hsl : env.isServerless = true
      · refine ⟨initialLoaderState, [], section_serverless env _ _ he' hsl, ?_, rfl⟩
        intro k2
        simp [rkeys, initialLoaderState]
      · have hsl' : env.isServerless = false := by simpa using hsl
        have hne : ¬ initialLoaderState.currentServerConfigs =
            some (stdioFingerprint (servers.filter (fun s => s.transport == TransportKind.stdio))) := by
          simp [initialLoaderState]
        have hok : (addStdioServers env (stopOldManager initialLoaderState) []
            (servers.filter (fun s => s.transport == TransportKind.stdio))).2.2 = true :=
          addStdio_ok env _ hsucc _ []
        obtain ⟨Δ, h1, h2⟩ := addStdio_delta env
          (servers.filter (fun s => s.transport == TransportKind.stdio))
          (stopOldManager initialLoaderState) []
        have hslog : (addStdioServers env (stopOldManager initialLoaderState) []
            (servers.filter (fun s => s.transport == TransportKind.stdio))).1.startedLog = Δ := by
          rw [h1]
          simp [stopOldManager, initialLoaderState]
        have hmgr : (addStdioServers env (stopOldManager initialLoaderState) []
            (servers.filter (fun s => s.transport == TransportKind.stdio))).2.1 = Δ := by
          rw [h2]
          simp
        refine ⟨_, _, section_rebuild_ok env initialLoaderState _ he' hsl' hne hok, ?_, ?_⟩
        · intro k2
          rw [mem_rkeys_managerGetAllTools, hmgr]
          constructor
          · rintro ⟨c, hc, hk⟩
            refine ⟨c, ?_, hk⟩
            show c ∈ (addStdioServers env (stopOldManager initialLoaderState) []
              (servers.filter (fun s => s.transport == TransportKind.stdio))).1.startedLog
            rw [hslog]
            exact hc
          · rintro ⟨c, hc, hk⟩
            refine ⟨c, ?_, hk⟩
            rw [← hslog]
            exact hc
        · show (addStdioServers env (stopOldManager initialLoaderState) []
            (servers.filter (fun s => s.transport == TransportKind.stdio))).1.globalHTTPClients = []
          rw [(addStdio_frame env _ _ []).2.1]
          rfl
  have hcore := loadCore_ok_eq env initialLoaderState S1 servers tools hsec
  have hload := loadMCPTools_of_ok env initialLoaderState _ servers _ hcore
  rw [hload]
  refine runHttp_keyset env _ S1 (rassign [] tools) ?_ ?_ k
  · intro p hp
    rw [hmapnil] at hp
    exact absurd hp (List.not_mem_nil p)
  · intro k2
    rw [mem_rkeys_rassign]
    simp only [rkeys, List.map_nil, List.not_mem_nil, false_or]
    exact hkeys k2

theorem section_httpclients (env : LoadEnv) (st : LoaderState)
    (ss : List MCPServerConfig) :
    (runStdioSection env st ss).1.globalHTTPClients = st.globalHTTPClients := by
  by_cases he : ss.isEmpty = true
  · rw [section_empty env st ss he]
  · have he' : ss.isEmpty = false := by simpa using he
    by_cases hsl : env.isServerless = true
    · rw [section_serverless env st ss he' hsl]
    · have hsl' : env.isServerless = false := by simpa using hsl
      by_cases heq : st.currentServerConfigs = some (stdioFingerprint ss)
      · rw [section_reuse env st ss he' hsl' heq]
      · rcases hok : (addStdioServers env (stopOldManager st) [] ss).2.2 with _ | _
        · rw [section_rebuild_err env st ss he' hsl' heq hok]
          show (addStdioServers env (stopOldManager st) [] ss).1.globalHTTPClients =
            st.globalHTTPClients
          rw [(addStdio_frame env ss _ []).2.1]
          cases hm : st.globalMCPManager <;> simp [stopOldManager, hm]
        · rw [section_rebuild_ok env st ss he' hsl' heq hok]
          show (addStdioServers env (stopOldManager st) [] ss).1.globalHTTPClients =
            st.globalHTTPClients
          rw [(addStdio_frame env ss _ []).2.1]
          cases hm : st.globalMCPManager <;> simp [stopOldManager, hm]

/-! ### Claim C1 -/

/-- C1 counterexample: from a fresh state, with stdio server `a` starting
successfully (reporting tool `t`) and stdio server `b` failing its
handshake, the handshake exception aborts the whole load: the returned
mapping is empty, so the qualified name `mcp_a_t` of a tool reported by a
successfully started server is missing from it. -/
theorem claim_C1_counterexample :
    (loadMCPTools envC1 initialLoaderState serversC1).2 = [] ∧
    (∃ c ∈ (loadMCPTools envC1 initialLoaderState serversC1).1.startedLog,
      ∃ t ∈ c.tools, "mcp_a_t" = "mcp_" ++ c.serverName ++ "_" ++ t.name) ∧
    "mcp_a_t" ∉ rkeys (loadMCPTools envC1 initialLoaderState serversC1).2 := by
  refine ⟨by decide, ?_, by decide⟩
  decide

/-- C1 amended: provided no process-transport handshake fails, loading from
a fresh state yields a mapping whose keys are exactly the strings
`"mcp_" ++ serverName ++ "_" ++ toolName` over every tool descriptor of
every successfully started server, and no other keys.  (When a
process-transport handshake fails, the loader instead returns the empty
mapping, per the counterexample.) -/
theorem claim_C1_qualified_names (env : LoadEnv) (servers : List MCPServerConfig)
    (hs : ∀ s ∈ servers, s.transport = TransportKind.stdio →
        s.command = none ∨ env.stdioBehavior s.name ≠ none) (k : String) :
    k ∈ rkeys (loadMCPTools env initialLoaderState servers).2 ↔
      ∃ c ∈ (loadMCPTools env initialLoaderState servers).1.startedLog,
        ∃ t ∈ c.tools, k = "mcp_" ++ c.serverName ++ "_" ++ t.name := by
  rw [load_initial_keyset env servers hs k]
  constructor
  · rintro ⟨c, hc, hk⟩
    rw [ClientSession.getTools, mem_rkeys_getToolsOf] at hk
    exact ⟨c, hc, hk⟩
  · rintro ⟨c, hc, hk⟩
    refine ⟨c, hc, ?_⟩
    rw [ClientSession.getTools, mem_rkeys_getToolsOf]
    exact hk

theorem claim_C1_witness :
    "mcp_a_t" ∈ rkeys (loadMCPTools envC1w initialLoaderState serversC1).2 ↔
      ∃ c ∈ (loadMCPTools envC1w initialLoaderState serversC1).1.startedLog,
        ∃ t ∈ c.tools, "mcp_a_t" = "mcp_" ++ c.serverName ++ "_" ++ t.name :=
  claim_C1_qualified_names envC1w serversC1 (by decide) "mcp_a_t"

/-! ### Claim C7 -/

/-- C7: `loadMCPTools` never propagates a failure: whatever the body inside
its top-level `try` does, the function returns a tool mapping — the body's
result when it succeeded, the empty mapping when it threw. -/
theorem claim_C7_loader_total (env : LoadEnv) (st : LoaderState)
    (servers : List MCPServerConfig) :
    ((loadCore env st servers).2 = Except.error () →
      loadMCPTools env st servers = ((loadCore env st servers).1, [])) ∧
    (∀ m, (loadCore env st servers).2 = Except.ok m →
      loadMCPTools env st servers = ((loadCore env st servers).1, m)) := by
  constructor
  · intro h
    have hx : loadCore env st servers =
        ((loadCore env st servers).1, Except.error ()) := by
      rw [← h]
    exact loadMCPTools_of_err env st _ servers hx
  · intro m h
    have hx : loadCore env st servers =
        ((loadCore env st servers).1, Except.ok m) := by
      rw [← h]
    exact loadMCPTools_of_ok env st _ servers m hx

theorem claim_C7_witness :
    loadMCPTools envC7 initialLoaderState serversC7 =
      ((loadCore envC7 initialLoaderState serversC7).1, []) :=
  (claim_C7_loader_total envC7 initialLoaderState serversC7).1 (by rfl)

/-! ### Claim C2 -/

/-- C2 counterexample: of three configured servers (stdio `a` reporting tool
`t`, stdio `b` whose handshake fails, HTTP `c` reporting tool `u`), the
single failing handshake is process-transport, and the load returns the
empty mapping instead of the union of the other two servers' tools. -/
theorem claim_C2_counterexample :
    (loadMCPTools envC2 initialLoaderState serversC2).2 = [] ∧
    (loadMCPTools envC2 initialLoaderState serversC2others).2 ≠ [] ∧
    (loadMCPTools envC2 initialLoaderState serversC2).2 ≠
      (loadMCPTools envC2 initialLoaderState serversC2others).2 := by
  refine ⟨by decide, by decide, by decide⟩

/-- C2 amended: a single *HTTP*-transport handshake failure degrades
gracefully — the load behaves exactly as if the failing server were absent
from the configuration list (so the mapping is the union of the other
servers' tools); a process-transport handshake failure instead aborts the
load with the empty mapping, per the counterexample. -/
theorem claim_C2_http_partial_failure (env : LoadEnv)
    (pre post : List MCPServerConfig) (s : MCPServerConfig)
    (htr : s.transport = TransportKind.http) (u : String) (hu : s.url = some u)
    (hfail : env.httpBehavior s.name = none)
    (hnodup : ∀ a ∈ pre ++ post, a.name ≠ s.name) :
    loadCore env initialLoaderState (pre ++ s :: post) =
      loadCore env initialLoaderState (pre ++ post) := by
  have hstdio : (pre ++ s :: post).filter (fun x => x.transport == TransportKind.stdio) =
      (pre ++ post).filter (fun x => x.transport == TransportKind.stdio) := by
    simp [List.filter_append, List.filter_cons, htr]
  have hhttp1 : (pre ++ s :: post).filter (fun x => x.transport == TransportKind.http) =
      pre.filter (fun x => x.transport == TransportKind.http) ++ s ::
      post.filter (fun x => x.transport == TransportKind.http) := by
    simp [List.filter_append, List.filter_cons, htr]
  have hhttp2 : (pre ++ post).filter (fun x => x.transport == TransportKind.http) =
      pre.filter (fun x => x.transport == TransportKind.http) ++
      post.filter (fun x => x.transport == TransportKind.http) := by
    simp [List.filter_append]
  rcases hsec : runStdioSection env initialLoaderState
      ((pre ++ s :: post).filter (fun x => x.transport == TransportKind.stdio)) with ⟨S1, res⟩
  have hsec' : runStdioSection env initialLoaderState
      ((pre ++ post).filter (fun x => x.transport == TransportKind.stdio)) = (S1, res) := by
    rw [← hstdio]
    exact hsec
  have hmap : S1.globalHTTPClients = [] := by
    have hx := section_httpclients env initialLoaderState
      ((pre ++ s :: post).filter (fun x => x.transport == TransportKind.stdio))
    rw [hsec] at hx
    exact hx
  cases res with
  | error e =>
    cases e
    rw [loadCore_err_eq env initialLoaderState S1 _ hsec,
      loadCore_err_eq env initialLoaderState S1 _ hsec']
  | ok tools =>
    rw [loadCore_ok_eq env initialLoaderState S1 _ tools hsec,
      loadCore_ok_eq env initialLoaderState S1 _ tools hsec',
      hhttp1, hhttp2]
    have hA : ∀ a ∈ pre.filter (fun x => x.transport == TransportKind.http),
        a.name ≠ s.name :=
      fun a ha => hnodup a (List.mem_append.mpr (Or.inl (List.mem_filter.mp ha).1))
    have hnm : s.name ∉ rkeys S1.globalHTTPClients := by
      rw [hmap]
      simp [rkeys]
    rw [runHttp_skip_failing env s hfail
      (pre.filter (fun x => x.transport == TransportKind.http))
      (post.filter (fun x => x.transport == TransportKind.http)) hA S1
      (rassign [] tools) hnm]

theorem claim_C2_witness :
    loadCore envC2w initialLoaderState [cfgC2a, cfgC2wb, cfgC2c] =
      loadCore envC2w initialLoaderState [cfgC2a, cfgC2c] :=
  claim_C2_http_partial_failure envC2w [cfgC2a] [cfgC2c] cfgC2wb
    (by decide) "http://b" (by decide) (by decide) (by decide)

/-! ### Claim C6 -/

theorem rset_of_fresh {α : Type} (r : List (String × α)) (k : String) (v : α)
    (h : k ∉ rkeys r) : rset r k v = r ++ [(k, v)] := by
  induction r with
  | nil => rfl
  | cons p rest ih =>
    simp only [rkeys, List.map_cons, List.mem_cons, not_or] at h
    have hne : ¬ p.1 = k := fun hx => h.1 hx.symm
    simp only [rset, if_neg hne]
    rw [ih (by simpa [rkeys] using h.2)]
    simp

theorem foldl_rset_map {α β : Type} (f : String × β → α) :
    ∀ (l : List (String × β)) (r : List (String × α)),
    (∀ p ∈ l, p.1 ∉ rkeys r) → (l.map (·.1)).Nodup →
    l.foldl (fun shape kv => rset shape kv.1 (f kv)) r =
      r ++ l.map (fun kv => (kv.1, f kv)) := by
  intro l
  induction l with
  | nil =>
    intro r _ _
    simp
  | cons p rest ih =>
    intro r hfresh hnodup
    simp only [List.map_cons, List.nodup_cons] at hnodup
    simp only [List.foldl_cons]
    rw [rset_of_fresh r p.1 (f p) (hfresh p (List.mem_cons_self p rest))]
    rw [ih (r ++ [(p.1, f p)]) ?fresh ?nodup]
    case fresh =>
      intro q hq
      simp only [rkeys, List.map_append, List.mem_append, not_or]
      refine ⟨?_, ?_⟩
      · have := hfresh q (List.mem_cons_of_mem p hq)
        simpa [rkeys] using this
      · simp only [List.map_cons, List.map_nil, List.mem_singleton]
        intro hx
        exact hnodup.1 (hx ▸ List.mem_map_of_mem (·.1) hq)
    case nodup => exact hnodup.2
    simp

/-- C6: schema translation maps each property of `schema.properties` to the
parameter type matching its JSON-Schema `type` (the `zodBaseForType` table:
string, number, boolean, array, object; anything else or absent to
`z.any()`), attaches its description, and makes it required exactly when
its name appears in `schema.required`; in particular the schema of the spec
example yields `path` required/string and `limit` optional/number. -/
theorem claim_C6_schema_translation :
    (∀ (schema : InputSchema) (props : List (String × PropSpec))
       (key : String) (prop : PropSpec),
      schema.properties = some props → (props.map (·.1)).Nodup →
      (key, prop) ∈ props →
      ∃ f, (key, f) ∈ convertJsonSchemaToZod schema ∧
        f.base = zodBaseForType prop.type? ∧
        f.describedAs = prop.description ∧
        (f.isOptional = false ↔ key ∈ schema.required.getD [])) ∧
    convertJsonSchemaToZod exampleSchemaC6 =
      [("path", { base := ZodBase.zstring, describedAs := none, isOptional := false }),
       ("limit", { base := ZodBase.znumber, describedAs := none, isOptional := true })] := by
  constructor
  · intro schema props key prop hp hnodup hmem
    have hconv : convertJsonSchemaToZod schema =
        props.map (fun kv =>
          (kv.1, ({ base := zodBaseForType kv.2.type?
                    describedAs := kv.2.description
                    isOptional := !((schema.required.getD []).contains kv.1) } : ZodField))) := by
      rw [convertJsonSchemaToZod, hp]
      show props.foldl
          (fun shape kv =>
            rset shape kv.1
              ({ base := zodBaseForType kv.2.type?
                 describedAs := kv.2.description
                 isOptional := !((schema.required.getD []).contains kv.1) } : ZodField)) [] = _
      rw [foldl_rset_map
        (fun kv => ({ base := zodBaseForType kv.2.type?
                      describedAs := kv.2.description
                      isOptional := !((schema.required.getD []).contains kv.1) } : ZodField))
        props [] (by simp [rkeys]) hnodup]
      simp
    refine ⟨{ base := zodBaseForType prop.type?
              describedAs := prop.description
              isOptional := !((schema.required.getD []).contains key) }, ?_, rfl, rfl, ?_⟩
    · rw [hconv]
      exact List.mem_map_of_mem _ hmem
    · simp [List.elem_iff]
  · decide

theorem claim_C6_witness :
    ∃ f, ("path", f) ∈ convertJsonSchemaToZod exampleSchemaC6 ∧
      f.base = zodBaseForType (some "string") ∧
      f.describedAs = none ∧
      (f.isOptional = false ↔ "path" ∈ exampleSchemaC6.required.getD []) :=
  claim_C6_schema_translation.1 exampleSchemaC6
    [("path", { type? := some "string" }), ("limit", { type? := some "number" })]
    "path" { type? := some "string" } rfl (by decide) (by decide)

/-! ### Claim C4 -/

theorem load_initial_post (env : LoadEnv) (servers : List MCPServerConfig)
    (hs : ∀ s ∈ servers, s.transport = TransportKind.stdio →
        s.command = none ∨ env.stdioBehavior s.name ≠ none) :
    ∃ S1 tools,
      runStdioSection env initialLoaderState
          (servers.filter (fun s => s.transport == TransportKind.stdio)) =
        (S1, Except.ok tools) ∧
      loadMCPTools env initialLoaderState servers =
        ((runHttpServers env S1 (rassign [] tools)
            (servers.filter (fun s => s.transport == TransportKind.http))).1,
         (runHttpServers env S1 (rassign [] tools)
            (servers.filter (fun s => s.transport == TransportKind.http))).2) ∧
      ((servers.filter (fun s => s.transport == TransportKind.stdio)).isEmpty = false →
        env.isServerless = false →
        S1.currentServerConfigs = some (stdioFingerprint
          (servers.filter (fun s => s.transport == TransportKind.stdio)))) ∧
      ((servers.filter (fun s => s.transport == TransportKind.stdio)).isEmpty = false →
        env.isServerless = false →
        ∃ mgr1, S1.globalMCPManager = some mgr1) := by
  have hsucc : ∀ s ∈ servers.filter (fun s => s.transport == TransportKind.stdio),
      s.command = none ∨ env.stdioBehavior s.name ≠ none := by
    intro s hx
    have h1 := List.mem_filter.mp hx
    exact hs s h1.1 (by simpa using h1.2)
  obtain ⟨S1, tools, hsec, hfp, hmgr⟩ :
      ∃ S1 tools,
        runStdioSection env initialLoaderState
            (servers.filter (fun s => s.transport == TransportKind.stdio)) =
          (S1, Except.ok tools) ∧
        ((servers.filter (fun s => s.transport == TransportKind.stdio)).isEmpty = false →
          env.isServerless = false →
          S1.currentServerConfigs = some (stdioFingerprint
            (servers.filter (fun s => s.transport == TransportKind.stdio)))) ∧
        ((servers.filter (fun s => s.transport == TransportKind.stdio)).isEmpty = false →
          env.isServerless = false →
          ∃ mgr1, S1.globalMCPManager = some mgr1) := by
    by_cases he : (servers.filter (fun s => s.transport == TransportKind.stdio)).isEmpty = true
    · exact ⟨initialLoaderState, [], section_empty env _ _ he,
        fun hne _ => absurd he (by simp [hne]), fun hne _ => absurd he (by simp [hne])⟩
    · have he' : (servers.filter (fun s => s.transport == TransportKind.stdio)).isEmpty
          = false := by simpa using he
      by_cases hsl : env.isServerless = true
      · exact ⟨initialLoaderState, [], section_serverless env _ _ he' hsl,
          fun _ hsl' => absurd hsl (by simp [hsl']), fun _ hsl' => absurd hsl (by simp [hsl'])⟩
      · have hsl' : env.isServerless = false := by simpa using hsl
        have hne : ¬ initialLoaderState.currentServerConfigs =
            some (stdioFingerprint
              (servers.filter (fun s => s.transport == TransportKind.stdio))) := by
          simp [initialLoaderState]
        have hok : (addStdioServers env (stopOldManager initialLoaderState) []
            (servers.filter (fun s => s.transport == TransportKind.stdio))).2.2 = true :=
          addStdio_ok env _ hsucc _ []
        exact ⟨_, _, section_rebuild_ok env initialLoaderState _ he' hsl' hne hok,
          fun _ _ => rfl, fun _ _ => ⟨_, rfl⟩⟩
  exact ⟨S1, tools, hsec,
    loadMCPTools_of_ok env initialLoaderState _ servers _
      (loadCore_ok_eq env initialLoaderState S1 servers tools hsec), hfp, hmgr⟩

/-- C4 counterexample: when a process-transport handshake fails during the
first call, the fingerprint assignment (after the stdio loop) is never
reached, so the second call with the *unchanged* configuration list sees a
changed hash, stops the partial cohort (the stopped log grows), and starts
new sessions (the started log grows) — session restarts occur on the second
call, refuting the claim as stated. -/
theorem claim_C4_counterexample :
    (loadMCPTools envC4cex (loadMCPTools envC4cex initialLoaderState serversC4cex).1
        serversC4cex).1.stoppedLog ≠
      (loadMCPTools envC4cex initialLoaderState serversC4cex).1.stoppedLog ∧
    (loadMCPTools envC4cex (loadMCPTools envC4cex initialLoaderState serversC4cex).1
        serversC4cex).1.startedLog ≠
      (loadMCPTools envC4cex initialLoaderState serversC4cex).1.startedLog := by
  refine ⟨by decide, by decide⟩

/-- C4 amended: calling the loader twice with an unchanged configuration
list from a fresh state performs zero session restarts *provided the first
call completed its stdio pass* (no process-transport handshake failed):
then the stdio config fingerprint is recorded by the first call and
unchanged at the second, so the second call stops no session, starts no
session, and in fact leaves the whole loader state (manager, HTTP client
map, logs, session-id counter) exactly as the first call left it.  When a
process-transport handshake fails on the first call the fingerprint is
never recorded and the second call restarts the partial stdio cohort, per
the counterexample. -/
theorem claim_C4_idempotent (env : LoadEnv) (servers : List MCPServerConfig)
    (hs : ∀ s ∈ servers, s.transport = TransportKind.stdio →
        s.command = none ∨ env.stdioBehavior s.name ≠ none) :
    (loadMCPTools env (loadMCPTools env initialLoaderState servers).1 servers).1 =
      (loadMCPTools env initialLoaderState servers).1 := by
  obtain ⟨S1, tools, hsec, hload, hfp, hmgrS1⟩ := load_initial_post env servers hs
  rw [hload]
  have hmapfr := runHttp_frame env
    (servers.filter (fun s => s.transport == TransportKind.http)) S1 (rassign [] tools)
  obtain ⟨tools2, hsec2⟩ :
      ∃ tools2,
        runStdioSection env
          (runHttpServers env S1 (rassign [] tools)
            (servers.filter (fun s => s.transport == TransportKind.http))).1
          (servers.filter (fun s => s.transport == TransportKind.stdio)) =
        ((runHttpServers env S1 (rassign [] tools)
            (servers.filter (fun s => s.transport == TransportKind.http))).1,
         Except.ok tools2) := by
    by_cases he : (servers.filter (fun s => s.transport == TransportKind.stdio)).isEmpty = true
    · exact ⟨[], section_empty env _ _ he⟩
    · have he' : (servers.filter (fun s => s.transport == TransportKind.stdio)).isEmpty
          = false := by simpa using he
      by_cases hsl : env.isServerless = true
      · exact ⟨[], section_serverless env _ _ he' hsl⟩
      · have hsl' : env.isServerless = false := by simpa using hsl
        have heq : (runHttpServers env S1 (rassign [] tools)
            (servers.filter (fun s => s.transport == TransportKind.http))).1.currentServerConfigs =
            some (stdioFingerprint
              (servers.filter (fun s => s.transport == TransportKind.stdio))) := by
          rw [hmapfr.2.1]
          exact hfp he' hsl'
        exact ⟨_, section_reuse env _ _ he' hsl' heq⟩
  have hcore2 := loadCore_ok_eq env _ _ servers tools2 hsec2
  have hload2 := loadMCPTools_of_ok env _ _ servers _ hcore2
  rw [hload2]
  refine runHttp_frozen env _ _ _ ?_
  intro s hsB
  rcases hu : s.url with _ | u
  · exact Or.inl rfl
  · rcases runHttp_post env
        (servers.filter (fun s => s.transport == TransportKind.http)) S1
        (rassign [] tools) s hsB (by simp [hu]) with hx | hx
    · exact Or.inr (Or.inl hx)
    · exact Or.inr (Or.inr hx)

/-! ### Claim C5 -/

theorem stopOldManager_nextSid (st : LoaderState) :
    (stopOldManager st).nextSid = st.nextSid := by
  cases hm : st.globalMCPManager <;> simp [stopOldManager, hm]

theorem stopOldManager_stoppedLog (st : LoaderState) (mgr1 : List ClientSession)
    (h : st.globalMCPManager = some mgr1) :
    (stopOldManager st).stoppedLog = st.stoppedLog ++ mgr1.map (·.sid) := by
  simp [stopOldManager, h]

theorem stdioFingerprint_ne (A B : List MCPServerConfig) (s s2 : MCPServerConfig)
    (hname : s2.name = s.name) (harg : s2.args = s.args) (henv : s2.env = s.env)
    (hcmd : s2.command ≠ s.command) :
    stdioFingerprint (A ++ s :: B) ≠ stdioFingerprint (A ++ s2 :: B) := by
  intro hEq
  simp only [stdioFingerprint, List.map_append, List.map_cons] at hEq
  have h2 := List.append_cancel_left hEq
  have h3 : (⟨s.name, s.command, s.args, s.env⟩ : StdioFingerprint) =
      ⟨s2.name, s2.command, s2.args, s2.env⟩ := (List.cons.injEq _ _ _ _ ▸ h2).1
  have h4 := congrArg StdioFingerprint.command h3
  exact hcmd (h4.symm)

/-- C5: from a fresh state, changing a single process-transport server's
`command` between two loads makes the second load restart the entire
process-transport cohort — the whole old manager is stopped (every one of
its session ids enters the stopped log) and a fresh session (id at least
the first load's counter) is started for every process-transport config —
while the HTTP client map is left exactly as the first load built it (no
HTTP session is stopped or re-created).  Requires that no process-transport
handshake fails and that the runtime is not serverless. -/
theorem claim_C5_restart_cohort (env : LoadEnv)
    (pre post : List MCPServerConfig) (s s2 : MCPServerConfig) (c1 c2 : String)
    (st1 st2 : LoaderState) (m1 m2 : List (String × ToolDef))
    (htr : s.transport = TransportKind.stdio)
    (hc1 : s.command = some c1)
    (hs2 : s2 = { s with command := some c2 })
    (hne12 : c1 ≠ c2)
    (hsl : env.isServerless = false)
    (hb : ∀ x ∈ pre ++ s :: post, x.transport = TransportKind.stdio →
        x.command = none ∨ env.stdioBehavior x.name ≠ none)
    (h1 : loadMCPTools env initialLoaderState (pre ++ s :: post) = (st1, m1))
    (h2 : loadMCPTools env st1 (pre ++ s2 :: post) = (st2, m2)) :
    (∃ mgr1, st1.globalMCPManager = some mgr1 ∧
      st2.stoppedLog = st1.stoppedLog ++ mgr1.map (·.sid)) ∧
    (∀ cfg ∈ pre ++ s2 :: post, cfg.transport = TransportKind.stdio →
      cfg.command ≠ none →
      ∃ c ∈ st2.globalMCPManager.getD [],
        c.serverName = cfg.name ∧ st1.nextSid ≤ c.sid) ∧
    st2.globalHTTPClients = st1.globalHTTPClients := by
  have hs2tr : s2.transport = TransportKind.stdio := by
    rw [hs2]
    exact htr
  have hs2cmd : s2.command = some c2 := by rw [hs2]
  have hs2name : s2.name = s.name := by rw [hs2]
  have hs2args : s2.args = s.args := by rw [hs2]
  have hs2env : s2.env = s.env := by rw [hs2]
  have hfil1 : (pre ++ s :: post).filter (fun x => x.transport == TransportKind.stdio) =
      pre.filter (fun x => x.transport == TransportKind.stdio) ++ s ::
      post.filter (fun x => x.transport == TransportKind.stdio) := by
    simp [List.filter_append, List.filter_cons, htr]
  have hfil2 : (pre ++ s2 :: post).filter (fun x => x.transport == TransportKind.stdio) =
      pre.filter (fun x => x.transport == TransportKind.stdio) ++ s2 ::
      post.filter (fun x => x.transport == TransportKind.stdio) := by
    simp [List.filter_append, List.filter_cons, hs2tr]
  have hfilh : (pre ++ s2 :: post).filter (fun x => x.transport == TransportKind.http) =
      (pre ++ s :: post).filter (fun x => x.transport == TransportKind.http) := by
    simp [List.filter_append, List.filter_cons, htr, hs2tr]
  have hne1 : ((pre ++ s :: post).filter
      (fun x => x.transport == TransportKind.stdio)).isEmpty = false := by
    rw [hfil1]
    cases pre.filter (fun x => x.transport == TransportKind.stdio) <;> rfl
  have hne2 : ((pre ++ s2 :: post).filter
      (fun x => x.transport == TransportKind.stdio)).isEmpty = false := by
    rw [hfil2]
    cases pre.filter (fun x => x.transport == TransportKind.stdio) <;> rfl
  obtain ⟨S1, tools, hsec, hload, hfp, hmgrex⟩ := load_initial_post env (pre ++ s :: post) hb
  have hst1 : st1 = (runHttpServers env S1 (rassign [] tools)
      ((pre ++ s :: post).filter (fun x => x.transport == TransportKind.http))).1 :=
    (congrArg Prod.fst (hload.symm.trans h1)).symm
  obtain ⟨mgr1, hmgr1S⟩ := hmgrex hne1 hsl
  have hframe1 := runHttp_frame env
    ((pre ++ s :: post).filter (fun x => x.transport == TransportKind.http)) S1
    (rassign [] tools)
  have hst1mgr : st1.globalMCPManager = some mgr1 := by
    rw [hst1, hframe1.1, hmgr1S]
  have hst1fp : st1.currentServerConfigs = some (stdioFingerprint
      ((pre ++ s :: post).filter (fun x => x.transport == TransportKind.stdio))) := by
    rw [hst1, hframe1.2.1]
    exact hfp hne1 hsl
  have hfpne : stdioFingerprint
        ((pre ++ s :: post).filter (fun x => x.transport == TransportKind.stdio)) ≠
      stdioFingerprint
        ((pre ++ s2 :: post).filter (fun x => x.transport == TransportKind.stdio)) := by
    rw [hfil1, hfil2]
    refine stdioFingerprint_ne _ _ s s2 hs2name hs2args hs2env ?_
    rw [hs2cmd, hc1]
    intro hx
    exact hne12 (Option.some.inj hx).symm
  have hnefp : ¬ st1.currentServerConfigs = some (stdioFingerprint
      ((pre ++ s2 :: post).filter (fun x => x.transport == TransportKind.stdio))) := by
    rw [hst1fp]
    intro hx
    exact hfpne (Option.some.inj hx)
  have hsucc2 : ∀ x ∈ (pre ++ s2 :: post).filter
      (fun x => x.transport == TransportKind.stdio),
      x.command = none ∨ env.stdioBehavior x.name ≠ none := by
    intro x hx
    have hmem := (List.mem_filter.mp hx).1
    rcases List.mem_append.mp hmem with hxp | hxc
    · exact hb x (List.mem_append.mpr (Or.inl hxp))
        (by simpa using (List.mem_filter.mp hx).2)
    · rcases List.mem_cons.mp hxc with rfl | hxpost
      · right
        rw [hs2name]
        rcases hb s (List.mem_append.mpr (Or.inr (List.mem_cons_self s post))) htr
          with hx' | hx'
        · rw [hc1] at hx'
          exact absurd hx' (by simp)
        · exact hx'
      · exact hb x (List.mem_append.mpr (Or.inr (List.mem_cons_of_mem s hxpost)))
          (by simpa using (List.mem_filter.mp hx).2)
  have hok2 : (addStdioServers env (stopOldManager st1) []
      ((pre ++ s2 :: post).filter (fun x => x.transport == TransportKind.stdio))).2.2
      = true :=
    addStdio_ok env _ hsucc2 _ []
  have hsec2 := section_rebuild_ok env st1
    ((pre ++ s2 :: post).filter (fun x => x.transport == TransportKind.stdio))
    hne2 hsl hnefp hok2
  have hcore2 := loadCore_ok_eq env st1 _ (pre ++ s2 :: post) _ hsec2
  have hload2 := loadMCPTools_of_ok env st1 _ (pre ++ s2 :: post) _ hcore2
  have hS2map : ({ (addStdioServers env (stopOldManager st1) []
        ((pre ++ s2 :: post).filter (fun x => x.transport == TransportKind.stdio))).1 with
      globalMCPManager := some (addStdioServers env (stopOldManager st1) []
        ((pre ++ s2 :: post).filter (fun x => x.transport == TransportKind.stdio))).2.1
      currentServerConfigs := some (stdioFingerprint
        ((pre ++ s2 :: post).filter (fun x => x.transport == TransportKind.stdio))) }
      : LoaderState).globalHTTPClients = st1.globalHTTPClients := by
    have hx := section_httpclients env st1
      ((pre ++ s2 :: post).filter (fun x => x.transport == TransportKind.stdio))
    rw [hsec2] at hx
    exact hx
  have hfroz : ∀ x ∈ (pre ++ s2 :: post).filter
      (fun x => x.transport == TransportKind.http),
      x.url = none ∨
      x.name ∈ rkeys ({ (addStdioServers env (stopOldManager st1) []
          ((pre ++ s2 :: post).filter (fun x => x.transport == TransportKind.stdio))).1 with
        globalMCPManager := some (addStdioServers env (stopOldManager st1) []
          ((pre ++ s2 :: post).filter (fun x => x.transport == TransportKind.stdio))).2.1
        currentServerConfigs := some (stdioFingerprint
          ((pre ++ s2 :: post).filter (fun x => x.transport == TransportKind.stdio))) }
        : LoaderState).globalHTTPClients ∨
      env.httpBehavior x.name = none := by
    intro x hx
    rcases hu : x.url with _ | u
    · exact Or.inl rfl
    · rw [hfilh] at hx
      rcases runHttp_post env
          ((pre ++ s :: post).filter (fun y => y.transport == TransportKind.http)) S1
          (rassign [] tools) x hx (by simp [hu]) with hy | hy
      · refine Or.inr (Or.inl ?_)
        rw [hS2map, hst1]
        exact hy
      · exact Or.inr (Or.inr hy)
  have hrun2 := runHttp_frozen env
    ((pre ++ s2 :: post).filter (fun x => x.transport == TransportKind.http))
    ({ (addStdioServers env (stopOldManager st1) []
        ((pre ++ s2 :: post).filter (fun x => x.transport == TransportKind.stdio))).1 with
      globalMCPManager := some (addStdioServers env (stopOldManager st1) []
        ((pre ++ s2 :: post).filter (fun x => x.transport == TransportKind.stdio))).2.1
      currentServerConfigs := some (stdioFingerprint
        ((pre ++ s2 :: post).filter (fun x => x.transport == TransportKind.stdio))) })
    (rassign [] (managerGetAllTools (addStdioServers env (stopOldManager st1) []
      ((pre ++ s2 :: post).filter (fun x => x.transport == TransportKind.stdio))).2.1))
    hfroz
  have hst2 : st2 = { (addStdioServers env (stopOldManager st1) []
        ((pre ++ s2 :: post).filter (fun x => x.transport == TransportKind.stdio))).1 with
      globalMCPManager := some (addStdioServers env (stopOldManager st1) []
        ((pre ++ s2 :: post).filter (fun x => x.transport == TransportKind.stdio))).2.1
      currentServerConfigs := some (stdioFingerprint
        ((pre ++ s2 :: post).filter (fun x => x.transport == TransportKind.stdio))) } := by
    have hx : (runHttpServers env _ _
        ((pre ++ s2 :: post).filter (fun x => x.transport == TransportKind.http))).1
        = st2 := congrArg Prod.fst (hload2.symm.trans h2)
    rw [← hx, hrun2]
  have hframe2 := addStdio_frame env
    ((pre ++ s2 :: post).filter (fun x => x.transport == TransportKind.stdio))
    (stopOldManager st1) []
  refine ⟨⟨mgr1, hst1mgr, ?_⟩, ?_, ?_⟩
  · rw [hst2]
    show (addStdioServers env (stopOldManager st1) []
      ((pre ++ s2 :: post).filter (fun x => x.transport == TransportKind.stdio))).1.stoppedLog
      = st1.stoppedLog ++ mgr1.map (·.sid)
    rw [hframe2.2.2.2, stopOldManager_stoppedLog st1 mgr1 hst1mgr]
  · intro cfg hcfg htrc hcmdc
    have hcfgf : cfg ∈ (pre ++ s2 :: post).filter
        (fun x => x.transport == TransportKind.stdio) :=
      List.mem_filter.mpr ⟨hcfg, by simp [htrc]⟩
    obtain ⟨c, hcmem, hcname, hcsid⟩ := addStdio_covers env _ hsucc2
      (stopOldManager st1) [] cfg hcfgf hcmdc
    refine ⟨c, ?_, hcname, ?_⟩
    · rw [hst2]
      show c ∈ (some (addStdioServers env (stopOldManager st1) []
        ((pre ++ s2 :: post).filter
          (fun x => x.transport == TransportKind.stdio))).2.1).getD []
      simpa using hcmem
    · rcases hcsid with hle | hmem
      · rw [stopOldManager_nextSid] at hle
        exact hle
      · exact absurd hmem (List.not_mem_nil c)
  · rw [hst2]
    exact hS2map

theorem claim_C5_witness :
    (loadMCPTools envC5 (loadMCPTools envC5 initialLoaderState [cfgC5s, cfgC5http]).1
        [cfgC5s2, cfgC5http]).1.globalHTTPClients =
      (loadMCPTools envC5 initialLoaderState [cfgC5s, cfgC5http]).1.globalHTTPClients :=
  (claim_C5_restart_cohort envC5 [] [cfgC5http] cfgC5s cfgC5s2 "run-a" "run-a2"
    (loadMCPTools envC5 initialLoaderState [cfgC5s, cfgC5http]).1
    (loadMCPTools envC5 (loadMCPTools envC5 initialLoaderState [cfgC5s, cfgC5http]).1
      [cfgC5s2, cfgC5http]).1
    (loadMCPTools envC5 initialLoaderState [cfgC5s, cfgC5http]).2
    (loadMCPTools envC5 (loadMCPTools envC5 initialLoaderState [cfgC5s, cfgC5http]).1
      [cfgC5s2, cfgC5http]).2
    rfl rfl rfl (by decide) rfl (by decide) rfl rfl).2.2

theorem claim_C4_witness :
    (loadMCPTools envC4 (loadMCPTools envC4 initialLoaderState serversC4).1 serversC4).1 =
      (loadMCPTools envC4 initialLoaderState serversC4).1 :=
  claim_C4_idempotent envC4 serversC4 (by decide)

/-! ### Claim C10 -/

theorem stopOldManager_startedLog (st : LoaderState) :
    (stopOldManager st).startedLog = st.startedLog := by
  cases hm : st.globalMCPManager <;> simp [stopOldManager, hm]

theorem section_started_names (env : LoadEnv) (st : LoaderState)
    (ss : List MCPServerConfig) :
    ∀ c ∈ (runStdioSection env st ss).1.startedLog,
      c ∈ st.startedLog ∨ c.serverName ∈ ss.map (·.name) := by
  intro c hc
  by_cases he : ss.isEmpty = true
  · rw [section_empty env st ss he] at hc
    exact Or.inl hc
  · have he' : ss.isEmpty = false := by simpa using he
    by_cases hsl : env.isServerless = true
    · rw [section_serverless env st ss he' hsl] at hc
      exact Or.inl hc
    · have hsl' : env.isServerless = false := by simpa using hsl
      by_cases heq : st.currentServerConfigs = some (stdioFingerprint ss)
      · rw [section_reuse env st ss he' hsl' heq] at hc
        exact Or.inl hc
      · rcases hok : (addStdioServers env (stopOldManager st) [] ss).2.2 with _ | _
        · rw [section_rebuild_err env st ss he' hsl' heq hok] at hc
          have hc' : c ∈ (addStdioServers env (stopOldManager st) [] ss).1.startedLog := hc
          rcases addStdio_started_names env ss _ [] c hc' with hx | hx
          · rw [stopOldManager_startedLog] at hx
            exact Or.inl hx
          · exact Or.inr hx
        · rw [section_rebuild_ok env st ss he' hsl' heq hok] at hc
          have hc' : c ∈ (addStdioServers env (stopOldManager st) [] ss).1.startedLog := hc
          rcases addStdio_started_names env ss _ [] c hc' with hx | hx
          · rw [stopOldManager_startedLog] at hx
            exact Or.inl hx
          · exact Or.inr hx

theorem load_started_names (env : LoadEnv) (servers : List MCPServerConfig) :
    ∀ c ∈ (loadCore env initialLoaderState servers).1.startedLog,
      c.serverName ∈ servers.map (·.name) := by
  intro c hc
  rcases hsec : runStdioSection env initialLoaderState
      (servers.filter (fun s => s.transport == TransportKind.stdio)) with ⟨S1, res⟩
  have hS1names : ∀ c2 ∈ S1.startedLog, c2.serverName ∈ servers.map (·.name) := by
    intro c2 hc2
    have hx := section_started_names env initialLoaderState
      (servers.filter (fun s => s.transport == TransportKind.stdio)) c2
      (by rw [hsec]; exact hc2)
    rcases hx with hx | hx
    · exact absurd hx (List.not_mem_nil c2)
    · obtain ⟨x, hxmem, hxname⟩ := List.mem_map.mp hx
      exact List.mem_map.mpr ⟨x, (List.mem_filter.mp hxmem).1, hxname⟩
  cases res with
  | error e =>
    cases e
    rw [loadCore_err_eq env initialLoaderState S1 servers hsec] at hc
    exact hS1names c hc
  | ok tools =>
    rw [loadCore_ok_eq env initialLoaderState S1 servers tools hsec] at hc
    have hx := runHttp_started_names env
      (servers.filter (fun s => s.transport == TransportKind.http)) S1
      (rassign [] tools) c hc
    rcases hx with hx | hx
    · exact hS1names c hx
    · obtain ⟨x, hxmem, hxname⟩ := List.mem_map.mp hx
      exact List.mem_map.mpr ⟨x, (List.mem_filter.mp hxmem).1, hxname⟩

theorem section_skip_stdio (env : LoadEnv) (s : MCPServerConfig)
    (hc : s.command = none) (A B : List MCPServerConfig) :
    ((runStdioSection env initialLoaderState (A ++ s :: B)).1.httpView,
     (runStdioSection env initialLoaderState (A ++ s :: B)).2) =
    ((runStdioSection env initialLoaderState (A ++ B)).1.httpView,
     (runStdioSection env initialLoaderState (A ++ B)).2) := by
  have hne1 : (A ++ s :: B).isEmpty = false := by cases A <;> rfl
  by_cases hAB : (A ++ B).isEmpty = true
  · have hAnil : A = [] ∧ B = [] := by
      rcases A with _ | ⟨a, A'⟩
      · exact ⟨rfl, by simpa [List.isEmpty_iff] using hAB⟩
      · simp [List.isEmpty_iff] at hAB
    obtain ⟨rfl, rfl⟩ := hAnil
    rw [section_empty env initialLoaderState _ hAB]
    by_cases hsl : env.isServerless = true
    · rw [section_serverless env initialLoaderState _ hne1 hsl]
    · have hsl' : env.isServerless = false := by simpa using hsl
      have hnefp : ¬ initialLoaderState.currentServerConfigs =
          some (stdioFingerprint ([] ++ s :: [])) := by
        simp [initialLoaderState]
      have hadd : addStdioServers env (stopOldManager initialLoaderState) []
          ([] ++ s :: []) = (initialLoaderState, [], true) := by
        rw [addStdio_skip_mid env s hc [] [] _ []]
        rfl
      have hok : (addStdioServers env (stopOldManager initialLoaderState) []
          ([] ++ s :: [])).2.2 = true := by rw [hadd]
      rw [section_rebuild_ok env initialLoaderState _ hne1 hsl' hnefp hok]
      simp only [hadd]
      rfl
  · have hAB' : (A ++ B).isEmpty = false := by simpa using hAB
    by_cases hsl : env.isServerless = true
    · rw [section_serverless env initialLoaderState _ hne1 hsl,
        section_serverless env initialLoaderState _ hAB' hsl]
    · have hsl' : env.isServerless = false := by simpa using hsl
      have hnefp1 : ¬ initialLoaderState.currentServerConfigs =
          some (stdioFingerprint (A ++ s :: B)) := by
        simp [initialLoaderState]
      have hnefp2 : ¬ initialLoaderState.currentServerConfigs =
          some (stdioFingerprint (A ++ B)) := by
        simp [initialLoaderState]
      have hr : addStdioServers env (stopOldManager initialLoaderState) [] (A ++ s :: B) =
          addStdioServers env (stopOldManager initialLoaderState) [] (A ++ B) :=
        addStdio_skip_mid env s hc A B _ []
      rcases hok : (addStdioServers env (stopOldManager initialLoaderState) []
          (A ++ B)).2.2 with _ | _
      · rw [section_rebuild_err env initialLoaderState _ hne1 hsl' hnefp1
            (by rw [hr]; exact hok),
          section_rebuild_err env initialLoaderState _ hAB' hsl' hnefp2 hok]
        simp only [hr]
      · rw [section_rebuild_ok env initialLoaderState _ hne1 hsl' hnefp1
            (by rw [hr]; exact hok),
          section_rebuild_ok env initialLoaderState _ hAB' hsl' hnefp2 hok]
        simp only [hr]
        rfl

theorem loadCore_skip_http (env : LoadEnv) (pre post : List MCPServerConfig)
    (s : MCPServerConfig) (htr : s.transport = TransportKind.http)
    (hu : s.url = none) :
    loadCore env initialLoaderState (pre ++ s :: post) =
      loadCore env initialLoaderState (pre ++ post) := by
  have hstdio : (pre ++ s :: post).filter (fun x => x.transport == TransportKind.stdio) =
      (pre ++ post).filter (fun x => x.transport == TransportKind.stdio) := by
    simp [List.filter_append, List.filter_cons, htr]
  have hhttp1 : (pre ++ s :: post).filter (fun x => x.transport == TransportKind.http) =
      pre.filter (fun x => x.transport == TransportKind.http) ++ s ::
      post.filter (fun x => x.transport == TransportKind.http) := by
    simp [List.filter_append, List.filter_cons, htr]
  have hhttp2 : (pre ++ post).filter (fun x => x.transport == TransportKind.http) =
      pre.filter (fun x => x.transport == TransportKind.http) ++
      post.filter (fun x => x.transport == TransportKind.http) := by
    simp [List.filter_append]
  rcases hsec : runStdioSection env initialLoaderState
      ((pre ++ s :: post).filter (fun x => x.transport == TransportKind.stdio))
      with ⟨S1, res⟩
  have hsec' : runStdioSection env initialLoaderState
      ((pre ++ post).filter (fun x => x.transport == TransportKind.stdio)) = (S1, res) := by
    rw [← hstdio]
    exact hsec
  cases res with
  | error e =>
    cases e
    rw [loadCore_err_eq env initialLoaderState S1 _ hsec,
      loadCore_err_eq env initialLoaderState S1 _ hsec']
  | ok tools =>
    rw [loadCore_ok_eq env initialLoaderState S1 _ tools hsec,
      loadCore_ok_eq env initialLoaderState S1 _ tools hsec', hhttp1, hhttp2,
      runHttp_skip_urlNone env s hu _ _ S1 (rassign [] tools)]

/-- C10: a process-transport config without a `command` and an
HTTP-transport config without a `url` are silently skipped: loading from a
fresh state starts no session for them, stops nothing extra, raises
nothing, and returns exactly the state observations and mapping of the same
load without that config; in particular (when no other config shares the
name) no started session carries the skipped server's name. -/
theorem claim_C10_incomplete_configs (env : LoadEnv)
    (pre post : List MCPServerConfig) (s : MCPServerConfig)
    (hskip : (s.transport = TransportKind.stdio ∧ s.command = none) ∨
             (s.transport = TransportKind.http ∧ s.url = none)) :
    (loadCore env initialLoaderState (pre ++ s :: post)).1.startedLog =
      (loadCore env initialLoaderState (pre ++ post)).1.startedLog ∧
    (loadCore env initialLoaderState (pre ++ s :: post)).1.stoppedLog =
      (loadCore env initialLoaderState (pre ++ post)).1.stoppedLog ∧
    (loadCore env initialLoaderState (pre ++ s :: post)).1.globalHTTPClients =
      (loadCore env initialLoaderState (pre ++ post)).1.globalHTTPClients ∧
    (loadCore env initialLoaderState (pre ++ s :: post)).2 =
      (loadCore env initialLoaderState (pre ++ post)).2 ∧
    ((∀ x ∈ pre ++ post, x.name ≠ s.name) →
      ∀ c ∈ (loadCore env initialLoaderState (pre ++ s :: post)).1.startedLog,
        c.serverName ≠ s.name) := by
  suffices main :
      (loadCore env initialLoaderState (pre ++ s :: post)).1.startedLog =
        (loadCore env initialLoaderState (pre ++ post)).1.startedLog ∧
      (loadCore env initialLoaderState (pre ++ s :: post)).1.stoppedLog =
        (loadCore env initialLoaderState (pre ++ post)).1.stoppedLog ∧
      (loadCore env initialLoaderState (pre ++ s :: post)).1.globalHTTPClients =
        (loadCore env initialLoaderState (pre ++ post)).1.globalHTTPClients ∧
      (loadCore env initialLoaderState (pre ++ s :: post)).2 =
        (loadCore env initialLoaderState (pre ++ post)).2 by
    refine ⟨main.1, main.2.1, main.2.2.1, main.2.2.2, ?_⟩
    intro hfresh c hcmem
    rw [main.1] at hcmem
    obtain ⟨x, hxmem, hxname⟩ :=
      List.mem_map.mp (load_started_names env (pre ++ post) c hcmem)
    rw [← hxname]
    exact hfresh x hxmem
  rcases hskip with ⟨htr, hc⟩ | ⟨htr, hu⟩
  · have hfh : (pre ++ s :: post).filter (fun x => x.transport == TransportKind.http) =
        (pre ++ post).filter (fun x => x.transport == TransportKind.http) := by
      simp [List.filter_append, List.filter_cons, htr]
    have hfs1 : (pre ++ s :: post).filter (fun x => x.transport == TransportKind.stdio) =
        pre.filter (fun x => x.transport == TransportKind.stdio) ++ s ::
        post.filter (fun x => x.transport == TransportKind.stdio) := by
      simp [List.filter_append, List.filter_cons, htr]
    have hfs2 : (pre ++ post).filter (fun x => x.transport == TransportKind.stdio) =
        pre.filter (fun x => x.transport == TransportKind.stdio) ++
        post.filter (fun x => x.transport == TransportKind.stdio) := by
      simp [List.filter_append]
    have hviews := section_skip_stdio env s hc
      (pre.filter (fun x => x.transport == TransportKind.stdio))
      (post.filter (fun x => x.transport == TransportKind.stdio))
    rw [← hfs1, ← hfs2] at hviews
    rcases hsec1 : runStdioSection env initialLoaderState
        ((pre ++ s :: post).filter (fun x => x.transport == TransportKind.stdio))
        with ⟨S1, res1⟩
    rcases hsec2 : runStdioSection env initialLoaderState
        ((pre ++ post).filter (fun x => x.transport == TransportKind.stdio))
        with ⟨S2, res2⟩
    rw [hsec1, hsec2] at hviews
    have hv1 : S1.httpView = S2.httpView := congrArg Prod.fst hviews
    have hv2 : res1 = res2 := congrArg Prod.snd hviews
    have hmap : S1.globalHTTPClients = S2.globalHTTPClients :=
      congrArg (fun v => v.1) hv1
    have hsid : S1.nextSid = S2.nextSid := congrArg (fun v => v.2.1) hv1
    have hstart : S1.startedLog = S2.startedLog := congrArg (fun v => v.2.2.1) hv1
    have hstop : S1.stoppedLog = S2.stoppedLog := congrArg (fun v => v.2.2.2) hv1
    cases res1 with
    | error e =>
      cases e
      rw [loadCore_err_eq env initialLoaderState S1 _ hsec1,
        loadCore_err_eq env initialLoaderState S2 _ (hv2 ▸ hsec2)]
      exact ⟨hstart, hstop, hmap, rfl⟩
    | ok tools =>
      have hres2 : res2 = Except.ok tools := hv2.symm
      subst hres2
      rw [loadCore_ok_eq env initialLoaderState S1 _ tools hsec1,
        loadCore_ok_eq env initialLoaderState S2 _ tools hsec2, hfh]
      have hrv := runHttp_view env
        ((pre ++ post).filter (fun x => x.transport == TransportKind.http))
        S1 S2 (rassign [] tools) hmap hsid hstart hstop
      have hfv := hrv.2
      have hmap' : (runHttpServers env S1 (rassign [] tools)
            ((pre ++ post).filter (fun x => x.transport == TransportKind.http))).1.globalHTTPClients =
          (runHttpServers env S2 (rassign [] tools)
            ((pre ++ post).filter (fun x => x.transport == TransportKind.http))).1.globalHTTPClients :=
        congrArg (fun v => v.1) hfv
      have hstart' : (runHttpServers env S1 (rassign [] tools)
            ((pre ++ post).filter (fun x => x.transport == TransportKind.http))).1.startedLog =
          (runHttpServers env S2 (rassign [] tools)
            ((pre ++ post).filter (fun x => x.transport == TransportKind.http))).1.startedLog :=
        congrArg (fun v => v.2.2.1) hfv
      have hstop' : (runHttpServers env S1 (rassign [] tools)
            ((pre ++ post).filter (fun x => x.transport == TransportKind.http))).1.stoppedLog =
          (runHttpServers env S2 (rassign [] tools)
            ((pre ++ post).filter (fun x => x.transport == TransportKind.http))).1.stoppedLog :=
        congrArg (fun v => v.2.2.2) hfv
      exact ⟨hstart', hstop', hmap', congrArg Except.ok hrv.1⟩
  · rw [loadCore_skip_http env pre post s htr hu]
    exact ⟨rfl, rfl, rfl, rfl⟩

theorem claim_C10_witness :
    (loadCore envC10 initialLoaderState [cfgC10a, cfgC10s]).1.startedLog =
      (loadCore envC10 initialLoaderState [cfgC10a]).1.startedLog :=
  (claim_C10_incomplete_configs envC10 [cfgC10a] [] cfgC10s (by decide)).1
